import Mathlib

/-!
# Task runner of the automation controller (api/tasks/runner.go)

A shallow embedding of the task runner: the task state machine, credential
materialisation, repository synchronisation, the role-dependency cache, the
assembly of the executor's argument vector and environment, and host
enumeration.  Everything the runner does to the outside (store, sockets,
filesystem, external commands, clock) is explicit state; every answer the
outside gives is read from an explicit record of external behaviour.
-/

set_option autoImplicit false
set_option linter.dupNamespace false

namespace Semaphore

/-! ## Constants (runner.go:21-29) -/

def taskRunningStatus : String := "running"
def taskWaitingStatus : String := "waiting"
def taskStoppingStatus : String := "stopping"
def taskStoppedStatus : String := "stopped"
def taskSuccessStatus : String := "success"
def taskFailStatus : String := "error"
def taskTypeID : String := "task"

/-- Modelled from the spec: the type tag of a credential without material
(db.AccessKeyNone; the declaration is outside the sources at hand). -/
def AccessKeyNone : String := "none"

/-- Modelled from the spec: the type tag of an SSH credential (db.AccessKeySSH). -/
def AccessKeySSH : String := "ssh"

/-- Modelled from the spec: the type tag of a login/password credential
(db.AccessKeyLoginPassword). -/
def AccessKeyLoginPassword : String := "login_password"

/-! ## Data model (the fields of the db records that runner.go reads or writes) -/

structure LoginPassword where
  Login : String
  Password : String
deriving DecidableEq

structure SshKey where
  Login : String
  Passphrase : String
  PrivateKey : String
deriving DecidableEq

/-- The record db.AccessKey; the Go field Type is spelled Type_ here. -/
structure AccessKey where
  ID : Int
  Name : String
  Type_ : String
  LoginPassword : LoginPassword
  SshKey : SshKey
deriving DecidableEq

/-- The record db.Task; timestamps are clock readings, absent when the Go pointer is nil. -/
structure Task where
  ID : Int
  TemplateID : Int
  Status : String
  Debug : Bool
  DryRun : Bool
  Playbook : String
  Environment : String
  Arguments : Option String
  UserID : Option Int
  Start : Option Nat
  End : Option Nat
deriving DecidableEq

structure Template where
  ID : Int
  ProjectID : Int
  Alias : String
  Playbook : String
  InventoryID : Int
  RepositoryID : Int
  EnvironmentID : Option Int
  VaultPassID : Option Int
  VaultPass : AccessKey
  Arguments : Option String
  OverrideArguments : Bool
deriving DecidableEq

structure Inventory where
  ID : Int
  Type_ : String
  Inventory : String
  SSHKeyID : Option Int
  SSHKey : AccessKey
  BecomeKey : AccessKey
deriving DecidableEq

structure Repository where
  ID : Int
  GitURL : String
  SSHKey : AccessKey
deriving DecidableEq

structure Environment where
  JSON : String
deriving DecidableEq

structure Event where
  UserID : Option Int
  ProjectID : Option Int
  ObjectType : Option String
  ObjectID : Option Int
  Description : Option String
deriving DecidableEq

/-- The live-update envelope that updateStatus sends to every subscribed user
(runner.go:71-78), kept as a record instead of its JSON bytes. -/
structure Update where
  type : String
  start : Option Nat
  end_ : Option Nat
  status : String
  task_id : Int
  project_id : Int
deriving DecidableEq

/-- A message on the resourceLocker channel. -/
structure resourceLock where
  lock : Bool
  holder : Int
deriving DecidableEq

/-- An external command as the runner hands it to os/exec. -/
structure Command where
  name : String
  args : List String
  dir : String
  env : List String
deriving DecidableEq

/-! ## Filesystem -/

/-- An entry of the filesystem.  The data is absent for an entry that exists but
cannot be read as a file (a directory, or a file closed to the process). -/
structure FileNode where
  data : Option String
  perm : Nat
deriving DecidableEq

/-- The filesystem as the runner sees it: the entries by path, the paths on which
every operation fails with an error other than not-exist, and the paths that cannot
be created, written or removed. -/
structure FS where
  files : List (String × FileNode)
  faulty : List String
  readOnly : List String
deriving DecidableEq

inductive StatResult where
  | ok
  | notExist
  | fault (msg : String)
deriving DecidableEq

def FS.find (fs : FS) (path : String) : Option FileNode :=
  fs.files.lookup path

def FS.put (fs : FS) (path : String) (n : FileNode) : FS :=
  { fs with files := (path, n) :: fs.files.filter (fun e => e.1 != path) }

def FS.drop (fs : FS) (path : String) : FS :=
  { fs with files := fs.files.filter (fun e => e.1 != path) }

/-- The call os.Stat, reduced to the three answers the runner distinguishes. -/
def FS.stat (fs : FS) (path : String) : StatResult :=
  if path ∈ fs.faulty then StatResult.fault ("stat " ++ path ++ ": permission denied")
  else match fs.find path with
    | none => StatResult.notExist
    | some _ => StatResult.ok

/-- The call ioutil.ReadFile. -/
def FS.readFile (fs : FS) (path : String) : Except String String :=
  if path ∈ fs.faulty then Except.error ("open " ++ path ++ ": permission denied")
  else match fs.find path with
    | none => Except.error ("open " ++ path ++ ": no such file or directory")
    | some n =>
      match n.data with
      | none => Except.error ("read " ++ path ++ ": cannot be read")
      | some d => Except.ok d

/-- The call ioutil.WriteFile: the file is created with the given mode when it does
not exist, and truncated and rewritten (keeping its mode) when it does. -/
def FS.writeFile (fs : FS) (path : String) (data : String) (perm : Nat) : Except String FS :=
  if path ∈ fs.faulty ∨ path ∈ fs.readOnly then
    Except.error ("open " ++ path ++ ": permission denied")
  else
    match fs.find path with
    | none => Except.ok (fs.put path { data := some data, perm := perm })
    | some n => Except.ok (fs.put path { data := some data, perm := n.perm })

/-- The call os.Remove. -/
def FS.remove (fs : FS) (path : String) : Except String FS :=
  if path ∈ fs.faulty ∨ path ∈ fs.readOnly then
    Except.error ("remove " ++ path ++ ": permission denied")
  else
    match fs.find path with
    | none => Except.error ("remove " ++ path ++ ": no such file or directory")
    | some _ => Except.ok (fs.drop path)

/-- The call os.MkdirAll on a path that does not exist yet. -/
def FS.mkdirAll (fs : FS) (path : String) (perm : Nat) : Except String FS :=
  if path ∈ fs.faulty ∨ path ∈ fs.readOnly then
    Except.error ("mkdir " ++ path ++ ": permission denied")
  else
    match fs.find path with
    | none => Except.ok (fs.put path { data := none, perm := perm })
    | some _ => Except.ok fs

/-! ## The Go standard library, as far as the runner relies on it -/

/-- A decoded JSON value (what encoding/json stores into an interface).  An object
keeps its members in document order; a number keeps its literal. -/
inductive Json where
  | null
  | bool (b : Bool)
  | num (lit : String)
  | str (s : String)
  | arr (items : List Json)
  | obj (members : List (String × Json))

/-- A Go map from strings to decoded values: an association list in which every key
occurs once. -/
abbrev GoMap := List (String × Json)

/-- The lookup m[k]. -/
def GoMap.get (m : GoMap) (k : String) : Option Json :=
  m.lookup k

/-- The builtin delete(m, k). -/
def GoMap.delete (m : GoMap) (k : String) : GoMap :=
  m.filter (fun e => e.1 != k)

/-- The assignment m[k] = v. -/
def GoMap.set (m : GoMap) (k : String) (v : Json) : GoMap :=
  (k, v) :: GoMap.delete m k

/-- Storing the members of a JSON object into a map, in document order: a key that
occurs twice keeps its last value. -/
def GoMap.assign (m : GoMap) (members : List (String × Json)) : GoMap :=
  members.foldl (fun acc e => GoMap.set acc e.1 e.2) m

/-- The behaviour of the standard library that is not fixed here: the JSON reader
(absent for a text that is not valid JSON, as the empty text is), the JSON writer, the
rendering of a non-string value under the verb %s, the function strings.ToUpper, and
the order in which a range statement visits a map (some permutation of its entries). -/
structure GoLib where
  jsonDecode : String → Option Json
  jsonDecode_empty : jsonDecode "" = none
  jsonEncode : Json → String
  verbS : Json → String
  toUpper : String → String
  rangeOrder : GoMap → GoMap
  rangeOrder_perm : ∀ m : GoMap, List.Perm (rangeOrder m) m

/-- One element of a JSON array stored into a string slice: a string is stored, null
leaves the zero value, anything else is a type error. -/
def unmarshalStringItem : Json → Except String String
  | Json.str s => Except.ok s
  | Json.null => Except.ok ""
  | _ => Except.error "json: cannot unmarshal value into Go value of type string"

/-- The call json.Unmarshal(text, &xs) for a string slice xs holding cur. -/
def unmarshalStrings (lib : GoLib) (text : String) (cur : List String) :
    Except String (List String) :=
  match lib.jsonDecode text with
  | none => Except.error "invalid character in JSON input"
  | some Json.null => Except.ok cur
  | some (Json.arr items) => items.mapM unmarshalStringItem
  | some _ => Except.error "json: cannot unmarshal value into Go value of type []string"

/-- The call json.Unmarshal(text, &m) for a map m from strings to interfaces: the
members of the object are stored over the entries m already has. -/
def unmarshalMap (lib : GoLib) (text : String) (m : GoMap) : Except String GoMap :=
  match lib.jsonDecode text with
  | none => Except.error "invalid character in JSON input"
  | some Json.null => Except.ok m
  | some (Json.obj members) => Except.ok (GoMap.assign m members)
  | some _ =>
    Except.error "json: cannot unmarshal value into Go value of type map[string]interface"

/-- The rendering fmt gives a decoded value under the verb %s. -/
def sprintS (lib : GoLib) : Json → String
  | Json.str s => s
  | v => lib.verbS v

/-- The function strconv.Itoa. -/
def itoa (n : Int) : String :=
  toString n

/-- The function strings.Split(s, sep) for a separator of one character, on the
characters of s. -/
def splitChars (sep : Char) : List Char → List (List Char)
  | [] => [[]]
  | c :: cs =>
    if c = sep then [] :: splitChars sep cs
    else
      match splitChars sep cs with
      | [] => [[c]]
      | p :: ps => (c :: p) :: ps

/-- The function strings.Split(s, "#"). -/
def splitHash (s : String) : List String :=
  (splitChars (Char.ofNat 35) s.data).map String.mk

/-! ## The outside world -/

/-- An error of the store: whether it is the sentinel db.ErrNotFound, and its message. -/
structure StoreErr where
  notFound : Bool
  msg : String
deriving DecidableEq

/-- The fields of the record db.Project that the runner reads. -/
structure Project where
  Alert : Bool
  AlertChat : String
deriving DecidableEq

/-- What running an external command did: whether it could be started, the handle of
the process, the error it exited with, its output, the filesystem it left, and whether
an operator asked for the task to stop while it ran. -/
structure ExecResult where
  startErr : Option String
  pid : Nat
  exitErr : Option String
  stdout : String
  stderr : String
  fs : FS
  stopped : Bool

/-- The behaviour of everything outside the runner.  The answers that can change from
one call to the next are indexed by the number of external calls made before.  A read
of the store answers with a record and an error, as the Go call does (the ids of the
users stand for the user records); inventoryPerm is the mode of the inventory file,
which the spec leaves open. -/
structure Ext where
  lib : GoLib
  TmpPath : String
  ConcurrencyMode : String
  environ : List String
  keyPath : Int → String
  md5 : String → String
  now : Nat → Nat
  updateTaskErr : Nat → Task → Option String
  createEventErr : Nat → Event → Option String
  exec : Nat → Command → FS → ExecResult
  stopAt : Nat → Bool
  getTemplate : Nat → Int → Int → Template × Option StoreErr
  getProject : Nat → Int → Project × Option StoreErr
  getProjectUsers : Nat → Int → List Int × Option StoreErr
  getInventory : Nat → Int → Int → Inventory × Option StoreErr
  getRepository : Nat → Int → Int → Repository × Option StoreErr
  getEnvironment : Nat → Int → Int → Environment × Option StoreErr
  inventoryPerm : Nat

/-- Everything the runner has done to the outside so far, and the filesystem. -/
structure World where
  tick : Nat
  fs : FS
  events : List Event
  updates : List Task
  messages : List (Int × Update)
  locker : List resourceLock
  logs : List String
  commands : List Command
  alerts : List String

/-- The struct task of runner.go:31-45.  The field store is the part of World that
records the store calls. -/
structure task where
  task : Task
  template : Template
  inventory : Inventory
  repository : Repository
  environment : Environment
  users : List Int
  projectID : Int
  hosts : List String
  alertChat : String
  alert : Bool
  prepared : Bool
  process : Option Nat

/-- A runner together with the world it acts on. -/
structure St where
  t : task
  w : World

/-- How a procedure that may panic ended. -/
inductive Outcome where
  | done
  | panic (msg : String)
deriving DecidableEq

/-- Modelled from the spec: the method db.AccessKey.GetPath, the deterministic on-disk
path of a credential, derived from its id. -/
def AccessKey.GetPath (x : Ext) (key : AccessKey) : String :=
  x.keyPath key.ID

/-- Modelled from the spec: the method task.log (outside the sources at hand), which
appends a line to the log of the task. -/
def task.log (msg : String) (s : St) : St :=
  { s with w := { s.w with logs := s.w.logs ++ [msg] } }

/-- Modelled from the spec: the method task.panicOnError (outside the sources at
hand): a store failure on a critical path is logged and is fatal to the runner. -/
def task.panicOnError (err : String) (msg : String) (s : St) : Outcome × St :=
  (Outcome.panic err, task.log msg s)

/-- Modelled from the spec: the methods task.sendMailAlert and task.sendTelegramAlert
(outside the sources at hand): mail is dispatched when the project has alerts on, chat
when in addition a chat is configured; a failure to dispatch is never fatal. -/
def task.sendAlerts (s : St) : St :=
  if s.t.alert then
    let w1 := { s.w with alerts := s.w.alerts ++ ["mail"] }
    if s.t.alertChat ≠ "" then
      { s with w := { w1 with alerts := w1.alerts ++ ["chat"] } }
    else { s with w := w1 }
  else s

/-- Modelled from the spec: an operator's Stop (outside the sources at hand) sets the
status of the task to stopping. -/
def task.operatorStop (s : St) : St :=
  { s with t := { s.t with task := { s.t.task with Status := taskStoppingStatus } } }

/-- Running an external command to its end (cmd.Run, cmd.Output, or cmd.Start followed
by cmd.Wait): the command is recorded, and a command that started leaves its
filesystem behind.  The method logCmd (outside the sources at hand) only attaches the
output of the command to the log of the task; that output is not kept in the log here. -/
def runCommand (x : Ext) (cmd : Command) (s : St) : ExecResult × St :=
  let r := x.exec s.w.tick cmd s.w.fs
  let w1 := { s.w with tick := s.w.tick + 1, commands := s.w.commands ++ [cmd] }
  match r.startErr with
  | some _ => (r, { s with w := w1 })
  | none => (r, { s with w := { w1 with fs := r.fs } })

/-- The error of cmd.Run: the error of starting, or else the error of waiting. -/
def ExecResult.runErr (r : ExecResult) : Option String :=
  match r.startErr with
  | some e => some e
  | none => r.exitErr

/-! ## The runner (runner.go) -/

/-- runner.go:47-49 -/
def task.getRepoName (t : Semaphore.task) : String :=
  "repository_" ++ itoa t.repository.ID ++ "_" ++ itoa t.template.ID

/-- runner.go:51-53 -/
def task.getRepoPath (x : Ext) (t : Semaphore.task) : String :=
  x.TmpPath ++ "/" ++ t.getRepoName

/-- The update that updateStatus builds for a user (runner.go:71-78). -/
def task.updateMessage (t : Semaphore.task) : Update :=
  { type := "update", start := t.task.Start, end_ := t.task.End, status := t.task.Status,
    task_id := t.task.ID, project_id := t.projectID }

/-- runner.go:69-88: send the update to every user, then write the task to the store;
a store error is fatal. -/
def task.updateStatus (x : Ext) (s : St) : Outcome × St :=
  let w1 := { s.w with messages := s.w.messages ++ s.t.users.map (fun u => (u, s.t.updateMessage)) }
  let w2 := { w1 with tick := w1.tick + 1, updates := w1.updates ++ [s.t.task] }
  match x.updateTaskErr s.w.tick s.t.task with
  | none => (Outcome.done, { s with w := w2 })
  | some err => task.panicOnError err "Failed to update task status" { s with w := w2 }

/-- The assignment t.task.Status = status (runner.go:65). -/
def St.withStatus (s : St) (status : String) : St :=
  { s with t := { s.t with task := { s.t.task with Status := status } } }

/-- runner.go:55-67 -/
def task.setStatus (x : Ext) (status : String) (s : St) : Outcome × St :=
  if s.t.task.Status = taskStoppingStatus then
    if status = taskFailStatus then
      task.updateStatus x (s.withStatus taskStoppedStatus)
    else if status = taskStoppedStatus then
      task.updateStatus x (s.withStatus status)
    else
      (Outcome.panic ("stopping task cannot be " ++ status), s)
  else
    task.updateStatus x (s.withStatus status)

/-- runner.go:90-94 -/
def task.fail (x : Ext) (s : St) : Outcome × St :=
  match task.setStatus x taskFailStatus s with
  | (Outcome.panic m, s1) => (Outcome.panic m, s1)
  | (Outcome.done, s1) => (Outcome.done, task.sendAlerts s1)

/-- runner.go:340-346 -/
def task.destroyKey (x : Ext) (key : AccessKey) (s : St) : Option String × St :=
  let path := key.GetPath x
  match s.w.fs.stat path with
  | StatResult.notExist => (none, s)
  | _ =>
    match s.w.fs.remove path with
    | Except.error e => (some e, s)
    | Except.ok fs1 => (none, { s with w := { s.w with fs := fs1 } })

/-- runner.go:96-105 -/
def task.destroyKeys (x : Ext) (s : St) : St :=
  let s1 :=
    match task.destroyKey x s.t.repository.SSHKey s with
    | (some e, s1) => task.log ("Can't destroy repository SSH key, error: " ++ e) s1
    | (none, s1) => s1
  match task.destroyKey x s1.t.inventory.SSHKey s1 with
  | (some e, s2) => task.log ("Can't destroy inventory SSH key, error: " ++ e) s2
  | (none, s2) => s2

/-- The call store.CreateEvent: the event is recorded and the outside answers with an
error or none. -/
def storeCreateEvent (x : Ext) (ev : Event) (s : St) : Option String × St :=
  (x.createEventErr s.w.tick ev,
   { s with w := { s.w with tick := s.w.tick + 1, events := s.w.events ++ [ev] } })

/-- The event a runner writes about its task, with the given end of description. -/
def task.eventOf (t : Semaphore.task) (tail : String) : Event :=
  { UserID := t.task.UserID, ProjectID := some t.projectID, ObjectType := some taskTypeID,
    ObjectID := some t.task.ID,
    Description := some ("Task ID " ++ itoa t.task.ID ++ " (" ++ t.template.Alias ++ ")" ++ tail) }

/-- runner.go:107-122 -/
def task.createTaskEvent (x : Ext) (s : St) : Outcome × St :=
  let ev := s.t.eventOf (" finished - " ++ x.lib.toUpper s.t.task.Status)
  match storeCreateEvent x ev s with
  | (some err, s1) => task.panicOnError err "Fatal error inserting an event" s1
  | (none, s1) => (Outcome.done, s1)

/-- runner.go:348-356 -/
def task.installVaultPassFile (x : Ext) (s : St) : Option String × St :=
  match s.t.template.VaultPassID with
  | none => (none, s)
  | some _ =>
    let path := s.t.template.VaultPass.GetPath x
    match s.w.fs.writeFile path s.t.template.VaultPass.LoginPassword.Password 0o600 with
    | Except.error e => (some e, s)
    | Except.ok fs1 => (none, { s with w := { s.w with fs := fs1 } })

/-- runner.go:358-372 -/
def task.installKey (x : Ext) (key : AccessKey) (s : St) : Option String × St :=
  if key.Type_ ≠ AccessKeySSH then (none, s)
  else
    let s1 := task.log ("access key " ++ key.Name ++ " installed") s
    let path := key.GetPath x
    if key.SshKey.Passphrase ≠ "" then
      (some "ssh key with passphrase not supported", s1)
    else
      match s1.w.fs.writeFile path key.SshKey.PrivateKey 0o600 with
      | Except.error e => (some e, s1)
      | Except.ok fs1 => (none, { s1 with w := { s1.w with fs := fs1 } })

/-- runner.go:645-662 -/
def extractCommandEnvironment (lib : GoLib) (envJSON : String) : List String :=
  match unmarshalMap lib envJSON [] with
  | Except.error _ => []
  | Except.ok js =>
    match GoMap.get js "ENV" with
    | some (Json.obj members) =>
      (lib.rangeOrder (GoMap.assign [] members)).map (fun e => e.1 ++ "=" ++ sprintS lib e.2)
    | _ => []

/-- runner.go:607-620.  The third entry is built with fmt.Sprintln, which ends it with
a newline. -/
def task.envVars (x : Ext) (t : Semaphore.task) (home : String) (pwd : String)
    (gitSSHCommand : Option String) : List String :=
  let env := x.environ
  let env := env ++ ["HOME=" ++ home]
  let env := env ++ ["PWD=" ++ pwd]
  let env := env ++ ["PYTHONUNBUFFERED=1" ++ "\n"]
  let env := env ++ extractCommandEnvironment x.lib t.environment.JSON
  match gitSSHCommand with
  | some c => env ++ ["GIT_SSH_COMMAND=" ++ c]
  | none => env

/-- The remote and the ref that updateRepository takes from the repository URL
(runner.go:392-395). -/
def repoURLAndTag (gitURL : String) : String × String :=
  match splitHash gitURL with
  | first :: second :: _ => (first, second)
  | _ => (gitURL, "master")

/-- runner.go:374-410 -/
def task.updateRepository (x : Ext) (s : St) : Option String × St :=
  let repoName := s.t.getRepoName
  let st := s.w.fs.stat (s.t.getRepoPath x)
  let env : Except String (List String) :=
    if s.t.repository.SSHKey.Type_ = AccessKeySSH then
      let gitSSHCommand := "ssh -o StrictHostKeyChecking=no -i " ++ s.t.repository.SSHKey.GetPath x
      Except.ok (s.t.envVars x x.TmpPath x.TmpPath (some gitSSHCommand))
    else if s.t.repository.SSHKey.Type_ = AccessKeyNone then
      Except.ok (s.t.envVars x x.TmpPath x.TmpPath none)
    else
      Except.error ("unsupported access key type: " ++ s.t.repository.SSHKey.Type_)
  match env with
  | Except.error e => (some e, s)
  | Except.ok env =>
    let (repoURL, repoTag) := repoURLAndTag s.t.repository.GitURL
    match st with
    | StatResult.notExist =>
      let s1 := task.log ("Cloning repository " ++ repoURL) s
      let cmd : Command :=
        { name := "git", args := ["clone", "--recursive", "--branch", repoTag, repoURL, repoName],
          dir := x.TmpPath, env := env }
      let (r, s2) := runCommand x cmd s1
      (r.runErr, s2)
    | StatResult.fault e => (some e, s)
    | StatResult.ok =>
      let s1 := task.log ("Updating repository " ++ repoURL) s
      let cmd : Command :=
        { name := "git", args := ["pull", "origin", repoTag],
          dir := x.TmpPath ++ "/" ++ repoName, env := env }
      let (r, s2) := runCommand x cmd s1
      (r.runErr, s2)

/-- Modelled from the spec: the function helpers.GetMD5Hash (outside the sources at
hand), which computes an MD5 of the contents of a file and fails when the file cannot
be read. -/
def GetMD5Hash (x : Ext) (fs : FS) (path : String) : Except String String :=
  match fs.readFile path with
  | Except.error e => Except.error e
  | Except.ok d => Except.ok (x.md5 d)

/-- runner.go:622-634 -/
def hasRequirementsChanges (x : Ext) (fs : FS) (requirementsFilePath : String)
    (requirementsHashFilePath : String) : Bool :=
  match fs.readFile requirementsHashFilePath with
  | Except.error _ => true
  | Except.ok oldFileMD5HashBytes =>
    match GetMD5Hash x fs requirementsFilePath with
    | Except.error _ => true
    | Except.ok newFileMD5Hash => oldFileMD5HashBytes != newFileMD5Hash

/-- runner.go:636-643 -/
def writeMD5Hash (x : Ext) (fs : FS) (requirementsFile : String) (requirementsHashFile : String) :
    Except String FS :=
  match GetMD5Hash x fs requirementsFile with
  | Except.error e => Except.error e
  | Except.ok newFileMD5Hash => fs.writeFile requirementsHashFile newFileMD5Hash 0o644

/-- runner.go:440-449 -/
def task.runGalaxy (x : Ext) (args : List String) (s : St) : Option String × St :=
  let dir := s.t.getRepoPath x
  let gitSSHCommand := "ssh -o StrictHostKeyChecking=no -i " ++ s.t.repository.SSHKey.GetPath x
  let cmd : Command :=
    { name := "ansible-galaxy", args := args, dir := dir,
      env := s.t.envVars x x.TmpPath dir (some gitSSHCommand) }
  let (r, s1) := runCommand x cmd s
  (r.runErr, s1)

/-- The path of the requirements file (runner.go:413). -/
def task.requirementsFilePath (x : Ext) (t : Semaphore.task) : String :=
  t.getRepoPath x ++ "/roles/requirements.yml"

/-- The path of the file that keeps the digest (runner.go:414). -/
def task.requirementsHashFilePath (x : Ext) (t : Semaphore.task) : String :=
  t.getRepoPath x ++ "/requirements.md5"

/-- runner.go:412-438 -/
def task.installRequirements (x : Ext) (s : St) : Option String × St :=
  let requirementsFilePath := s.t.requirementsFilePath x
  let requirementsHashFilePath := s.t.requirementsHashFilePath x
  match s.w.fs.stat requirementsFilePath with
  | StatResult.notExist =>
    (none, task.log "No roles/requirements.yml file found. Skip galaxy install process.\n" s)
  | StatResult.fault _ =>
    (none, task.log "No roles/requirements.yml file found. Skip galaxy install process.\n" s)
  | StatResult.ok =>
    if hasRequirementsChanges x s.w.fs requirementsFilePath requirementsHashFilePath then
      match task.runGalaxy x ["install", "-r", "roles/requirements.yml", "--force"] s with
      | (some e, s1) => (some e, s1)
      | (none, s1) =>
        match writeMD5Hash x s1.w.fs requirementsFilePath requirementsHashFilePath with
        | Except.error e => (some e, s1)
        | Except.ok fs1 => (none, { s1 with w := { s1.w with fs := fs1 } })
    else
      (none, task.log "roles/requirements.yml has no changes. Skip galaxy install process.\n" s)

/-- The entries that getExtraVars derives from the credentials of the inventory
(runner.go:503-517); the login of the become entries is read from the SSH key. -/
def task.credentialVars (t : Semaphore.task) : GoMap :=
  let extraVars : GoMap := []
  let extraVars :=
    if t.inventory.SSHKey.Type_ = AccessKeyLoginPassword then
      let ev :=
        if t.inventory.SSHKey.LoginPassword.Login ≠ "" then
          GoMap.set extraVars "ansible_user" (Json.str t.inventory.SSHKey.LoginPassword.Login)
        else extraVars
      GoMap.set ev "ansible_password" (Json.str t.inventory.SSHKey.LoginPassword.Password)
    else extraVars
  if t.inventory.BecomeKey.Type_ = AccessKeyLoginPassword then
    let ev :=
      if t.inventory.SSHKey.LoginPassword.Login ≠ "" then
        GoMap.set extraVars "ansible_become_user" (Json.str t.inventory.SSHKey.LoginPassword.Login)
      else extraVars
    GoMap.set ev "ansible_become_password" (Json.str t.inventory.SSHKey.LoginPassword.Password)
  else extraVars

/-- runner.go:502-534.  The writer json.Marshal has no error on a map of strings and
decoded values, so the return at runner.go:529-531 is never taken. -/
def task.getExtraVars (x : Ext) (t : Semaphore.task) : Except String String :=
  let extraVars := t.credentialVars
  let decoded : Except String GoMap :=
    if t.environment.JSON ≠ "" then unmarshalMap x.lib t.environment.JSON extraVars
    else Except.ok extraVars
  match decoded with
  | Except.error e => Except.error e
  | Except.ok extraVars =>
    let extraVars := GoMap.delete extraVars "ENV"
    Except.ok (x.lib.jsonEncode (Json.obj extraVars))

/-- The variable declared nil and then filled by json.Unmarshal when the JSON text is
present (runner.go:579-595). -/
def unmarshalArguments (lib : GoLib) (arguments : Option String) : Except String (List String) :=
  match arguments with
  | none => Except.ok []
  | some text => unmarshalStrings lib text []

/-- The playbook that getPlaybookArgs names (runner.go:538-541). -/
def task.playbookName (t : Semaphore.task) : String :=
  if t.task.Playbook.length = 0 then t.template.Playbook else t.task.Playbook

/-- The inventory path that getPlaybookArgs passes (runner.go:543-549). -/
def task.inventoryPath (x : Ext) (t : Semaphore.task) : String :=
  if t.inventory.Type_ = "file" then t.inventory.Inventory
  else x.TmpPath ++ "/inventory_" ++ itoa t.task.ID

/-- The arguments that getPlaybookArgs builds before the extra variables
(runner.go:551-569). -/
def task.leadingArgs (x : Ext) (t : Semaphore.task) : List String :=
  let args := ["-i", t.inventoryPath x]
  let args :=
    if t.inventory.SSHKeyID.isSome ∧ t.inventory.SSHKey.Type_ = AccessKeySSH then
      args ++ ["--private-key=" ++ t.inventory.SSHKey.GetPath x]
    else args
  let args := if t.task.Debug then args ++ ["-vvvv"] else args
  let args := if t.task.DryRun then args ++ ["--check"] else args
  if t.template.VaultPassID.isSome then
    args ++ ["--vault-password-file", t.template.VaultPass.GetPath x]
  else args

/-- The step of getPlaybookArgs that adds the extra variables (runner.go:571-577): an
error of getExtraVars is logged and not fatal. -/
def task.addExtraVars (x : Ext) (args : List String) (s : St) : List String × St :=
  match s.t.getExtraVars x with
  | Except.error e =>
    (args, task.log "Could not remove command environment, if existant it will be passed to --extra-vars. This is not fatal but be aware of side effects" (task.log e s))
  | Except.ok extraVars =>
    if extraVars ≠ "" then (args ++ ["--extra-vars", extraVars], s) else (args, s)

/-- runner.go:537-605 -/
def task.getPlaybookArgs (x : Ext) (s : St) : Except String (List String) × St :=
  let playbookName := s.t.playbookName
  let args := s.t.leadingArgs x
  match task.addExtraVars x args s with
  | (args, s1) =>
    match unmarshalArguments x.lib s.t.template.Arguments with
    | Except.error e => (Except.error e, task.log "Could not unmarshal arguments to []string" s1)
    | Except.ok templateExtraArgs =>
      match unmarshalArguments x.lib s.t.task.Arguments with
      | Except.error e => (Except.error e, task.log "Could not unmarshal arguments to []string" s1)
      | Except.ok taskExtraArgs =>
        if s.t.template.OverrideArguments then (Except.ok templateExtraArgs, s1)
        else (Except.ok (args ++ templateExtraArgs ++ taskExtraArgs ++ [playbookName]), s1)

/-! ### The regular expression of host enumeration

The pattern at runner.go:472 has the shape: the flag (?m), the anchor ^, a lead of
atoms with repetition counts, the capture (.*), the anchor $.  Patterns of that shape
are compiled and matched below the way package regexp does: in the pattern text a
backslash followed by a backslash is a literal backslash, a backslash followed by s
is the class of white space, any other character is itself, and a count in braces
repeats the atom before it. -/

/-- An atom of the lead of a pattern. -/
inductive Atom where
  | lit (c : Char)
  | space
deriving DecidableEq

def backslash : Char := Char.ofNat 92

def newline : Char := Char.ofNat 10

/-- Whether an atom accepts a character; the class of white space is tab, newline,
form feed, carriage return and space. -/
def Atom.accepts : Atom → Char → Bool
  | Atom.lit c, d => c == d
  | Atom.space, d => d.toNat == 9 || d.toNat == 10 || d.toNat == 12 || d.toNat == 13 || d.toNat == 32

/-- The atom at the head of a pattern text, and the text after it. -/
def nextAtom : List Char → Option (Atom × List Char)
  | [] => none
  | c :: rest =>
    if c = backslash then
      match rest with
      | d :: rest2 =>
        if d = backslash then some (Atom.lit backslash, rest2)
        else if d = 's' then some (Atom.space, rest2)
        else none
      | [] => none
    else some (Atom.lit c, rest)

/-- The repetition count in braces at the head of a pattern text (one digit), or one
when there is none. -/
def nextCount : List Char → Nat × List Char
  | a :: d :: b :: rest =>
    if a.toNat = 123 ∧ d.isDigit ∧ b.toNat = 125 then (d.toNat - 48, rest)
    else (1, a :: d :: b :: rest)
  | cs => (1, cs)

/-- The lead of a pattern: its atoms with their counts. -/
def parseLead : Nat → List Char → Option (List (Atom × Nat))
  | 0, _ => none
  | fuel + 1, cs =>
    match cs with
    | [] => some []
    | _ =>
      match nextAtom cs with
      | none => none
      | some (a, rest) =>
        let (n, rest2) := nextCount rest
        match parseLead fuel rest2 with
        | none => none
        | some more => some ((a, n) :: more)

/-- Compiling a pattern of the shape (?m)^ lead (.*)$ with a lead that consumes at
least one character; absent for any other pattern. -/
def compileLinePattern (pattern : String) : Option (List (Atom × Nat)) :=
  let head := "(?m)^".data
  let tail := "(.*)$".data
  let cs := pattern.data
  if head.isPrefixOf cs ∧ tail.isSuffixOf (cs.drop head.length) then
    let mid := (cs.drop head.length).take (cs.length - head.length - tail.length)
    match parseLead (mid.length + 1) mid with
    | some lead => if lead.all (fun e => decide (0 < e.2)) ∧ lead ≠ [] then some lead else none
    | none => none
  else none

/-- An atom repeated n times at the head of a text: the last character consumed and
the text left. -/
def matchRepeat (a : Atom) : Nat → Option Char → List Char → Option (Option Char × List Char)
  | 0, last, cs => some (last, cs)
  | _ + 1, _, [] => none
  | n + 1, _, c :: cs => if a.accepts c then matchRepeat a n (some c) cs else none

/-- The lead at the head of a text. -/
def matchLead : List (Atom × Nat) → Option Char → List Char → Option (Option Char × List Char)
  | [], last, cs => some (last, cs)
  | (a, n) :: more, last, cs =>
    match matchRepeat a n last cs with
    | none => none
    | some (last2, rest) => matchLead more last2 rest

/-- Whether the anchor ^ holds, under the flag (?m), after the given character. -/
def atLineStart : Option Char → Bool
  | none => true
  | some c => c == newline

/-- The captures of the successive matches of a compiled pattern in a text, leftmost
first and not overlapping, at most limit of them (FindAllSubmatch, index 1 of each
match).  The text is scanned once; prev is the character before the scanning position. -/
def findAllCaptures (lead : List (Atom × Nat)) :
    Nat → Nat → Option Char → List Char → List (List Char)
  | 0, _, _, _ => []
  | fuel + 1, limit, prev, text =>
    if limit = 0 then []
    else
      match (if atLineStart prev then matchLead lead none text else none) with
      | some (last, rest) =>
        let cap := rest.takeWhile (fun c => c != newline)
        let after := rest.dropWhile (fun c => c != newline)
        let prev2 := match cap.getLast? with
          | some c => some c
          | none => last
        cap :: findAllCaptures lead fuel (limit - 1) prev2 after
      | none =>
        match text with
        | [] => []
        | c :: cs => findAllCaptures lead fuel limit (some c) cs

/-- The pattern text between the back quotes at runner.go:472, character for
character: the raw string literal keeps both backslashes. -/
def hostsPattern : String :=
  "(?m)^" ++ String.mk [backslash, backslash] ++ "s" ++ String.mk [Char.ofNat 123] ++ "6"
    ++ String.mk [Char.ofNat 125] ++ "(.*)$"

/-- The host list that listPlaybookHosts takes from the output of the executor
(runner.go:472-477): the captures of at most 20 matches of the pattern. -/
def hostsOfOutput (pattern : String) (out : String) : List String :=
  match compileLinePattern pattern with
  | none => []
  | some lead => (findAllCaptures lead (out.length + 1) 20 none out.data).map String.mk

/-- The standard output that cmd.Output returns. -/
def ExecResult.output (r : ExecResult) : String :=
  match r.startErr with
  | some _ => ""
  | none => r.stdout

/-- The standard error collected in the buffer of the command. -/
def ExecResult.errOutput (r : ExecResult) : String :=
  match r.startErr with
  | some _ => ""
  | none => r.stderr

/-- runner.go:451-480 -/
def task.listPlaybookHosts (x : Ext) (s : St) : (String × Option String) × St :=
  if x.ConcurrencyMode = "project" then (("", none), s)
  else
    match task.getPlaybookArgs x s with
    | (Except.error e, s1) => (("", some e), s1)
    | (Except.ok args, s1) =>
      let args := args ++ ["--list-hosts"]
      let dir := s1.t.getRepoPath x
      let cmd : Command :=
        { name := "ansible-playbook", args := args, dir := dir,
          env := s1.t.envVars x x.TmpPath dir none }
      let (r, s2) := runCommand x cmd s1
      let hosts := hostsOfOutput hostsPattern r.output
      ((r.errOutput, r.runErr), { s2 with t := { s2.t with hosts := hosts } })

/-- runner.go:482-500.  An operator may ask for a stop while the runner waits for the
process. -/
def task.runPlaybook (x : Ext) (s : St) : Option String × St :=
  match task.getPlaybookArgs x s with
  | (Except.error e, s1) => (some e, s1)
  | (Except.ok args, s1) =>
    let dir := s1.t.getRepoPath x
    let cmd : Command :=
      { name := "ansible-playbook", args := args, dir := dir,
        env := s1.t.envVars x x.TmpPath dir none }
    let (r, s2) := runCommand x cmd s1
    match r.startErr with
    | some e => (some e, s2)
    | none =>
      let s3 := { s2 with t := { s2.t with process := some r.pid } }
      let s4 := if r.stopped then task.operatorStop s3 else s3
      (r.exitErr, s4)

/-- The last three calls of the deferred function of run (runner.go:216-218). -/
def task.runDeferredTail (x : Ext) (s : St) : Outcome × St :=
  match task.updateStatus x s with
  | (Outcome.panic m, s3) => (Outcome.panic m, s3)
  | (Outcome.done, s3) =>
    match task.createTaskEvent x s3 with
    | (Outcome.panic m, s4) => (Outcome.panic m, s4)
    | (Outcome.done, s4) => (Outcome.done, task.destroyKeys x s4)

/-- The deferred function of run (runner.go:209-219): release the resource locker, set
the end timestamp, then the three calls above. -/
def task.runDeferred (x : Ext) (s : St) : Outcome × St :=
  let s1 : St :=
    { s with w := { s.w with locker := s.w.locker ++ [{ lock := false, holder := s.t.task.ID }] } }
  let now := x.now s1.w.tick
  let s2 : St :=
    { t := { s1.t with task := { s1.t.task with End := some now } },
      w := { s1.w with tick := s1.w.tick + 1 } }
  task.runDeferredTail x s2

/-- The body of run (runner.go:221-262).  An operator may ask for a stop between the
status write at runner.go:229 and the check at runner.go:251. -/
def task.runBody (x : Ext) (s : St) : Outcome × St :=
  if s.t.task.Status = taskStoppingStatus then
    task.setStatus x taskStoppedStatus s
  else
    let now := x.now s.w.tick
    let s1 : St :=
      { t := { s.t with task := { s.t.task with Start := some now } },
        w := { s.w with tick := s.w.tick + 1 } }
    match task.setStatus x taskRunningStatus s1 with
    | (Outcome.panic m, s2) => (Outcome.panic m, s2)
    | (Outcome.done, s2) =>
      match storeCreateEvent x (s2.t.eventOf " is running") s2 with
      | (some err, s3) => (Outcome.panic err, task.log "Fatal error inserting an event" s3)
      | (none, s3) =>
        let s4 := task.log ("Started: " ++ itoa s3.t.task.ID) s3
        let s5 := task.log ("Run task with template: " ++ s4.t.template.Alias ++ "\n") s4
        let s6 : St :=
          if x.stopAt s5.w.tick then
            task.operatorStop { s5 with w := { s5.w with tick := s5.w.tick + 1 } }
          else { s5 with w := { s5.w with tick := s5.w.tick + 1 } }
        if s6.t.task.Status = taskStoppingStatus then
          task.setStatus x taskStoppedStatus s6
        else
          match task.runPlaybook x s6 with
          | (some e, s7) => task.fail x (task.log ("Running playbook failed: " ++ e) s7)
          | (none, s7) => task.setStatus x taskSuccessStatus s7

/-- runner.go:208-263: the body, then the deferred function, which also runs when the
body panicked; a panic of the deferred function replaces that of the body. -/
def task.run (x : Ext) (s : St) : Outcome × St :=
  match task.runBody x s with
  | (o, s1) =>
    match task.runDeferred x s1 with
    | (Outcome.panic m, s2) => (Outcome.panic m, s2)
    | (Outcome.done, s2) => (o, s2)

/-- How a function that returns an error, and that may panic, ended. -/
inductive Ret where
  | ok
  | err (e : String)
  | panic (msg : String)
deriving DecidableEq

/-- runner.go:664-674 -/
def checkTmpDir (fs : FS) (path : String) : Option String × FS :=
  match fs.stat path with
  | StatResult.ok => (none, fs)
  | StatResult.fault e => (some e, fs)
  | StatResult.notExist =>
    match fs.mkdirAll path 0o700 with
    | Except.error e => (some e, fs)
    | Except.ok fs1 => (none, fs1)

/-- runner.go:265-277, called with an error that is not nil: the sentinel
db.ErrNotFound is logged and returned; any other error fails the task and panics. -/
def task.prepareError (x : Ext) (err : StoreErr) (errMsg : String) (s : St) : Ret × St :=
  if err.notFound then (Ret.err err.msg, task.log errMsg s)
  else
    match task.fail x s with
    | (Outcome.panic m, s1) => (Ret.panic m, s1)
    | (Outcome.done, s1) => (Ret.panic err.msg, s1)

/-- One more external call made. -/
def St.tick (s : St) : St :=
  { s with w := { s.w with tick := s.w.tick + 1 } }

/-- The end of populateDetails (runner.go:327-337): the environment of the template
is read when the task has none of its own, else that of the task is taken. -/
def task.populateEnvironment (x : Ext) (s : St) : Ret × St :=
  if s.t.task.Environment.length = 0 ∧ s.t.template.EnvironmentID.isSome then
    match s.t.template.EnvironmentID with
    | none => (Ret.ok, s)
    | some envID =>
      match x.getEnvironment s.w.tick s.t.template.ProjectID envID with
      | (env, some err) => (Ret.err err.msg, { s.tick with t := { s.t with environment := env } })
      | (env, none) => (Ret.ok, { s.tick with t := { s.t with environment := env } })
  else if s.t.task.Environment.length > 0 then
    (Ret.ok, { s with t := { s.t with environment := { JSON := s.t.task.Environment } } })
  else (Ret.ok, s)

/-- The reads of inventory and repository in populateDetails (runner.go:309-320). -/
def task.populateInventory (x : Ext) (s : St) : Ret × St :=
  match x.getInventory s.w.tick s.t.template.ProjectID s.t.template.InventoryID with
  | (inv, some err) =>
    task.prepareError x err "Template Inventory not found!"
      { s.tick with t := { s.t with inventory := inv } }
  | (inv, none) =>
    let s1 : St := { s.tick with t := { s.t with inventory := inv } }
    match x.getRepository s1.w.tick s1.t.template.ProjectID s1.t.template.RepositoryID with
    | (repo, some err) => (Ret.err err.msg, { s1.tick with t := { s1.t with repository := repo } })
    | (repo, none) =>
      task.populateEnvironment x { s1.tick with t := { s1.t with repository := repo } }

/-- runner.go:280-338 -/
def task.populateDetails (x : Ext) (s : St) : Ret × St :=
  match x.getTemplate s.w.tick s.t.projectID s.t.task.TemplateID with
  | (tpl, some err) =>
    task.prepareError x err "Template not found!" { s.tick with t := { s.t with template := tpl } }
  | (tpl, none) =>
    let s1 : St := { s.tick with t := { s.t with template := tpl } }
    match x.getProject s1.w.tick s1.t.template.ProjectID with
    | (_, some err) => task.prepareError x err "Project not found!" s1.tick
    | (project, none) =>
      let s2 : St :=
        { s1.tick with t := { s1.t with alert := project.Alert, alertChat := project.AlertChat } }
      match x.getProjectUsers s2.w.tick s2.t.template.ProjectID with
      | (_, some err) => task.prepareError x err "Users not found!" s2.tick
      | (users, none) =>
        task.populateInventory x { s2.tick with t := { s2.t with users := users } }

/-- Modelled from the spec: the method task.installInventory (outside the sources at
hand): for an inventory of type file the stored path is used and nothing is written;
otherwise the inline inventory text is written to the file inventory_taskId under the
tmp root. -/
def task.installInventory (x : Ext) (s : St) : Option String × St :=
  if s.t.inventory.Type_ = "file" then (none, s)
  else
    match s.w.fs.writeFile (x.TmpPath ++ "/inventory_" ++ itoa s.t.task.ID)
        s.t.inventory.Inventory x.inventoryPerm with
    | Except.error e => (some e, s)
    | Except.ok fs1 => (none, { s with w := { s.w with fs := fs1 } })

/-- The shape of every preparation step of prepareRun (as at runner.go:137-142): when
the step returned an error, log it, fail the task and return; else go on. -/
def task.stepOrFail (x : Ext) (r : Option String × St) (msg : String → String)
    (next : St → Outcome × St) : Outcome × St :=
  match r with
  | (some e, s1) => task.fail x (task.log (msg e) s1)
  | (none, s1) => next s1

/-- The steps of prepareRun after the event that says the task is preparing
(runner.go:165-205). -/
def task.prepareSteps (x : Ext) (s : St) : Outcome × St :=
  let s0 := task.log ("Prepare task with template: " ++ s.t.template.Alias ++ "\n") s
  task.stepOrFail x (task.installKey x s0.t.repository.SSHKey s0)
    (fun e => "Failed installing ssh key for repository access: " ++ e) fun s1 =>
  task.stepOrFail x (task.updateRepository x s1)
    (fun e => "Failed updating repository: " ++ e) fun s2 =>
  task.stepOrFail x (task.installInventory x s2)
    (fun e => "Failed to install inventory: " ++ e) fun s3 =>
  task.stepOrFail x (task.installRequirements x s3)
    (fun e => "Running galaxy failed: " ++ e) fun s4 =>
  task.stepOrFail x (task.installVaultPassFile x s4)
    (fun e => "Failed to install vault password file: " ++ e) fun s5 =>
  match task.listPlaybookHosts x s5 with
  | ((stderr, err), s6) =>
    task.stepOrFail x (err, s6)
      (fun e => "Listing playbook hosts failed: " ++ e ++ "\n" ++ stderr) fun s7 =>
    (Outcome.done, { s7 with t := { s7.t with prepared := true } })

/-- The body of prepareRun (runner.go:125-205). -/
def task.prepareBody (x : Ext) (s : St) : Outcome × St :=
  let s0 : St := { s with t := { s.t with prepared := false } }
  let s1 := task.log ("Preparing: " ++ itoa s0.t.task.ID) s0
  match checkTmpDir s1.w.fs x.TmpPath with
  | (some e, fs1) =>
    task.fail x (task.log ("Creating tmp dir failed: " ++ e) { s1 with w := { s1.w with fs := fs1 } })
  | (none, fs1) =>
    match task.populateDetails x { s1 with w := { s1.w with fs := fs1 } } with
    | (Ret.panic m, s2) => (Outcome.panic m, s2)
    | (Ret.err e, s2) => task.fail x (task.log ("Error: " ++ e) s2)
    | (Ret.ok, s2) =>
      match storeCreateEvent x (s2.t.eventOf " is preparing") s2 with
      | (some err, s3) => (Outcome.panic err, task.log "Fatal error inserting an event" s3)
      | (none, s3) => task.prepareSteps x s3

/-- The deferred function of prepareRun (runner.go:127-133): release the resource
locker, then write the event of the task. -/
def task.prepareDeferred (x : Ext) (s : St) : Outcome × St :=
  let s1 : St :=
    { s with w := { s.w with locker := s.w.locker ++ [{ lock := false, holder := s.t.task.ID }] } }
  task.createTaskEvent x s1

/-- runner.go:124-206: the body, then the deferred function, which also runs when the
body panicked; a panic of the deferred function replaces that of the body. -/
def task.prepareRun (x : Ext) (s : St) : Outcome × St :=
  match task.prepareBody x s with
  | (o, s1) =>
    match task.prepareDeferred x s1 with
    | (Outcome.panic m, s2) => (Outcome.panic m, s2)
    | (Outcome.done, s2) => (o, s2)

/-! ## A reference standard library, for evaluating the runner on concrete inputs -/

def quoteChar : Char := Char.ofNat 34

/-- JSON white space. -/
def isJsonSpace (c : Char) : Bool :=
  c.toNat == 32 || c.toNat == 9 || c.toNat == 10 || c.toNat == 13

def skipJsonSpace : List Char → List Char
  | [] => []
  | c :: cs => if isJsonSpace c then skipJsonSpace cs else c :: cs

/-- The value of a hexadecimal digit. -/
def hexValue (c : Char) : Option Nat :=
  if c.isDigit then some (c.toNat - 48)
  else if 97 ≤ c.toNat ∧ c.toNat ≤ 102 then some (c.toNat - 87)
  else if 65 ≤ c.toNat ∧ c.toNat ≤ 70 then some (c.toNat - 55)
  else none

/-- The character of a simple escape. -/
def unescapeChar (c : Char) : Option Char :=
  if c = quoteChar then some quoteChar
  else if c = backslash then some backslash
  else if c = '/' then some '/'
  else if c = 'b' then some (Char.ofNat 8)
  else if c = 'f' then some (Char.ofNat 12)
  else if c = 'n' then some (Char.ofNat 10)
  else if c = 'r' then some (Char.ofNat 13)
  else if c = 't' then some (Char.ofNat 9)
  else none

/-- The body of a JSON string after its opening quote: the decoded text and the input
after the closing quote. -/
def readStringBody : List Char → List Char → Option (String × List Char)
  | [], _ => none
  | c :: cs, acc =>
    if c = quoteChar then some (String.mk acc.reverse, cs)
    else if c = backslash then
      match cs with
      | [] => none
      | e :: cs2 =>
        if e = 'u' then
          match cs2 with
          | h1 :: h2 :: h3 :: h4 :: cs3 =>
            match hexValue h1, hexValue h2, hexValue h3, hexValue h4 with
            | some a, some b, some c2, some d =>
              readStringBody cs3 (Char.ofNat (a * 4096 + b * 256 + c2 * 16 + d) :: acc)
            | _, _, _, _ => none
          | _ => none
        else
          match unescapeChar e with
          | some u => readStringBody cs2 (u :: acc)
          | none => none
    else if c.toNat < 32 then none
    else readStringBody cs (c :: acc)

def readDigits : List Char → List Char × List Char
  | [] => ([], [])
  | c :: cs =>
    if c.isDigit then
      match readDigits cs with
      | (ds, rest) => (c :: ds, rest)
    else ([], c :: cs)

/-- A JSON number at the head of the input: its literal and the input after it. -/
def readNumber (cs : List Char) : Option (String × List Char) :=
  let (sign, cs1) := match cs with
    | c :: rest => if c = '-' then ([c], rest) else ([], cs)
    | [] => ([], [])
  let (intPart, cs2) := readDigits cs1
  if intPart = [] ∨ (intPart.length > 1 ∧ intPart.head? = some '0') then none
  else
    let fracRes : Option (List Char × List Char) := match cs2 with
      | c :: rest =>
        if c = '.' then
          match readDigits rest with
          | ([], _) => none
          | (ds, rest2) => some (c :: ds, rest2)
        else some ([], cs2)
      | [] => some ([], [])
    match fracRes with
    | none => none
    | some (frac, cs3) =>
      let expRes : Option (List Char × List Char) := match cs3 with
        | c :: rest =>
          if c = 'e' ∨ c = 'E' then
            let (sg, rest2) := match rest with
              | d :: rest3 => if d = '+' ∨ d = '-' then ([d], rest3) else ([], rest)
              | [] => ([], [])
            match readDigits rest2 with
            | ([], _) => none
            | (ds, rest4) => some (c :: sg ++ ds, rest4)
          else some ([], cs3)
        | [] => some ([], [])
      match expRes with
      | none => none
      | some (ex, cs4) => some (String.mk (sign ++ intPart ++ frac ++ ex), cs4)

mutual

/-- A JSON value at the head of the input (after white space). -/
def readValue : Nat → List Char → Option (Json × List Char)
  | 0, _ => none
  | fuel + 1, cs =>
    match skipJsonSpace cs with
    | [] => none
    | c :: rest =>
      if c = quoteChar then
        match readStringBody rest [] with
        | some (s, rest2) => some (Json.str s, rest2)
        | none => none
      else if c.toNat = 123 then
        match skipJsonSpace rest with
        | d :: rest2 =>
          if d.toNat = 125 then some (Json.obj [], rest2)
          else
            match readMembers fuel (d :: rest2) with
            | some (ms, rest3) => some (Json.obj ms, rest3)
            | none => none
        | [] => none
      else if c = '[' then
        match skipJsonSpace rest with
        | d :: rest2 =>
          if d = ']' then some (Json.arr [], rest2)
          else
            match readItems fuel (d :: rest2) with
            | some (xs, rest3) => some (Json.arr xs, rest3)
            | none => none
        | [] => none
      else if "true".data.isPrefixOf (c :: rest) then some (Json.bool true, (c :: rest).drop 4)
      else if "false".data.isPrefixOf (c :: rest) then some (Json.bool false, (c :: rest).drop 5)
      else if "null".data.isPrefixOf (c :: rest) then some (Json.null, (c :: rest).drop 4)
      else
        match readNumber (c :: rest) with
        | some (lit, rest2) => some (Json.num lit, rest2)
        | none => none

/-- The members of an object up to and including its closing brace. -/
def readMembers : Nat → List Char → Option (List (String × Json) × List Char)
  | 0, _ => none
  | fuel + 1, cs =>
    match skipJsonSpace cs with
    | c :: rest =>
      if c = quoteChar then
        match readStringBody rest [] with
        | some (k, rest2) =>
          match skipJsonSpace rest2 with
          | d :: rest3 =>
            if d = ':' then
              match readValue fuel rest3 with
              | some (v, rest4) =>
                match skipJsonSpace rest4 with
                | e :: rest5 =>
                  if e = ',' then
                    match readMembers fuel rest5 with
                    | some (ms, rest6) => some ((k, v) :: ms, rest6)
                    | none => none
                  else if e.toNat = 125 then some ([(k, v)], rest5)
                  else none
                | [] => none
              | none => none
            else none
          | [] => none
        | none => none
      else none
    | [] => none

/-- The items of an array up to and including its closing bracket. -/
def readItems : Nat → List Char → Option (List Json × List Char)
  | 0, _ => none
  | fuel + 1, cs =>
    match readValue fuel cs with
    | some (v, rest) =>
      match skipJsonSpace rest with
      | e :: rest2 =>
        if e = ',' then
          match readItems fuel rest2 with
          | some (xs, rest3) => some (v :: xs, rest3)
          | none => none
        else if e = ']' then some ([v], rest2)
        else none
      | [] => none
    | none => none

end

/-- A JSON reader: one value, with white space around it, and nothing else. -/
def refDecode (text : String) : Option Json :=
  match readValue (text.length + 1) text.data with
  | some (v, rest) => if skipJsonSpace rest = [] then some v else none
  | none => none


def hexDigit (n : Nat) : Char :=
  if n < 10 then Char.ofNat (48 + n) else Char.ofNat (87 + n)

/-- The escape json.Marshal writes for a character of a string. -/
def escapeChar (c : Char) : List Char :=
  if c = quoteChar then [backslash, quoteChar]
  else if c = backslash then [backslash, backslash]
  else if c.toNat = 10 then [backslash, 'n']
  else if c.toNat = 13 then [backslash, 'r']
  else if c.toNat = 9 then [backslash, 't']
  else if c.toNat < 32 ∨ c = '<' ∨ c = '>' ∨ c = '&' ∨ c.toNat = 8232 ∨ c.toNat = 8233 then
    [backslash, 'u', hexDigit (c.toNat / 4096 % 16), hexDigit (c.toNat / 256 % 16),
      hexDigit (c.toNat / 16 % 16), hexDigit (c.toNat % 16)]
  else [c]

def encodeString (s : String) : String :=
  String.mk (quoteChar :: (s.data.flatMap escapeChar ++ [quoteChar]))

/-- The order of strings by their characters. -/
def ltChars : List Char → List Char → Bool
  | _, [] => false
  | [], _ :: _ => true
  | a :: as, b :: bs => a.toNat < b.toNat || (a.toNat == b.toNat && ltChars as bs)

/-- Inserting a member into a list of members sorted by key. -/
def insertMember (e : String × String) : List (String × String) → List (String × String)
  | [] => [e]
  | f :: fs => if ltChars e.1.data f.1.data then e :: f :: fs else f :: insertMember e fs

def sortMembers (ms : List (String × String)) : List (String × String) :=
  ms.foldr insertMember []

/-- The keys of an object once stored in a map, each with the index of its last
member. -/
def lastMembers (ms : List (String × String)) : List (String × String) :=
  (ms.reverse.foldl (fun acc e => if acc.any (fun f => f.1 == e.1) then acc else e :: acc) [])

mutual

/-- A JSON writer: compact, the members of an object sorted by key. -/
def refEncode : Json → String
  | Json.null => "null"
  | Json.bool b => if b then "true" else "false"
  | Json.num lit => lit
  | Json.str s => encodeString s
  | Json.arr items => "[" ++ ",".intercalate (refEncodeItems items) ++ "]"
  | Json.obj members =>
    String.mk [Char.ofNat 123]
      ++ ",".intercalate ((sortMembers (lastMembers (refEncodeMembers members))).map
          (fun e => encodeString e.1 ++ ":" ++ e.2))
      ++ String.mk [Char.ofNat 125]

def refEncodeItems : List Json → List String
  | [] => []
  | v :: vs => refEncode v :: refEncodeItems vs

def refEncodeMembers : List (String × Json) → List (String × String)
  | [] => []
  | (k, v) :: ms => (k, refEncode v) :: refEncodeMembers ms

end

/-- A rendering under the verb %s for values that are not strings. -/
def refVerbS : Json → String
  | Json.null => "%!s(<nil>)"
  | Json.bool b => if b then "%!s(bool=true)" else "%!s(bool=false)"
  | Json.num lit => "%!s(float64=" ++ lit ++ ")"
  | v => refEncode v

/-- Upper case, letter by letter. -/
def refToUpper (s : String) : String :=
  String.mk (s.data.map Char.toUpper)

/-- The reference library: the reader and the writer above, and a range statement
that visits a map in its stored order. -/
def refLib : GoLib :=
  { jsonDecode := refDecode
    jsonDecode_empty := rfl
    jsonEncode := refEncode
    verbS := refVerbS
    toUpper := refToUpper
    rangeOrder := fun m => m
    rangeOrder_perm := fun m => List.Perm.refl m }

def noKey : AccessKey :=
  { ID := 0, Name := "", Type_ := AccessKeyNone,
    LoginPassword := { Login := "", Password := "" },
    SshKey := { Login := "", Passphrase := "", PrivateKey := "" } }

def sampleTemplate : Template :=
  { ID := 3, ProjectID := 1, Alias := "deploy", Playbook := "site.yml", InventoryID := 2,
    RepositoryID := 5, EnvironmentID := none, VaultPassID := none, VaultPass := noKey,
    Arguments := none, OverrideArguments := false }

def sampleInventory : Inventory :=
  { ID := 2, Type_ := "static", Inventory := "web1", SSHKeyID := none, SSHKey := noKey,
    BecomeKey := noKey }

def sampleRepository : Repository :=
  { ID := 5, GitURL := "git@example.com:ops/playbooks.git", SSHKey := noKey }

/-- An outside in which nothing fails: every store call succeeds (the reads answer with
the sample records), every command starts, exits without error, prints nothing and
leaves the filesystem as it found it, and no operator interferes. -/
def quietExt : Ext :=
  { lib := refLib
    TmpPath := "/tmp/semaphore"
    ConcurrencyMode := ""
    environ := []
    keyPath := fun id => "/tmp/semaphore/access_key_" ++ itoa id
    md5 := fun d => "md5-of:" ++ d
    now := fun n => 1000 + n
    updateTaskErr := fun _ _ => none
    createEventErr := fun _ _ => none
    exec := fun _ _ fs =>
      { startErr := none, pid := 4242, exitErr := none, stdout := "", stderr := "", fs := fs,
        stopped := false }
    stopAt := fun _ => false
    getTemplate := fun _ _ _ => (sampleTemplate, none)
    getProject := fun _ _ => ({ Alert := false, AlertChat := "" }, none)
    getProjectUsers := fun _ _ => ([1, 2], none)
    getInventory := fun _ _ _ => (sampleInventory, none)
    getRepository := fun _ _ _ => (sampleRepository, none)
    getEnvironment := fun _ _ _ => ({ JSON := "" }, none)
    inventoryPerm := 0o644 }

def emptyFS : FS :=
  { files := [], faulty := [], readOnly := [] }

def emptyWorld : World :=
  { tick := 0, fs := emptyFS, events := [], updates := [], messages := [], locker := [],
    logs := [], commands := [], alerts := [] }

/-- A waiting task of a template with a static inventory and credentials without
material. -/
def sampleTask : Semaphore.task :=
  { task :=
      { ID := 7, TemplateID := 3, Status := taskWaitingStatus, Debug := false, DryRun := false,
        Playbook := "", Environment := "", Arguments := none, UserID := some 1, Start := none,
        End := none }
    template := sampleTemplate
    inventory := sampleInventory
    repository := sampleRepository
    environment := { JSON := "" }
    users := [1, 2]
    projectID := 1
    hosts := []
    alertChat := ""
    alert := false
    prepared := false
    process := none }

def sampleSt : St :=
  { t := sampleTask, w := emptyWorld }

/-- The sample task after an operator asked for it to stop. -/
def stoppingSt : St :=
  { sampleSt with t := { sampleTask with task := { sampleTask.task with Status := taskStoppingStatus } } }

/-- The sample task with template and task arguments and a playbook of its own. -/
def argsSt : St :=
  { sampleSt with
    t := { sampleTask with
      task := { sampleTask.task with
        Playbook := "deploy.yml", Arguments := some "[\"--limit\",\"web1\"]" }
      template := { sampleTask.template with Arguments := some "[\"--tags\",\"web\"]" } } }

/-- The sample task under a template that overrides the arguments. -/
def overrideSt : St :=
  { sampleSt with
    t := { sampleTask with
      task := { sampleTask.task with Playbook := "ignored.yml", Debug := true, DryRun := true }
      template := { sampleTask.template with
        Arguments := some "[\"-i\",\"custom\",\"site.yml\"]", OverrideArguments := true } } }

/-- The sample task with an inline environment that has a variable and an ENV object. -/
def envTask : Semaphore.task :=
  { sampleTask with
    environment :=
      { JSON := "\x7b\"foo\":\"bar\",\"ENV\":\x7b\"HTTP_PROXY\":\"http://p:8080\"\x7d\x7d" } }

/-- An SSH credential without passphrase. -/
def plainSshKey : AccessKey :=
  { ID := 11, Name := "deploy key", Type_ := AccessKeySSH,
    LoginPassword := { Login := "", Password := "" },
    SshKey := { Login := "", Passphrase := "", PrivateKey := "-----BEGIN KEY-----" } }

/-- An SSH credential protected by a passphrase. -/
def lockedSshKey : AccessKey :=
  { plainSshKey with SshKey := { plainSshKey.SshKey with Passphrase := "secret" } }

/-- An outside like the quiet one in which every command prints two host lines the way
the executor lists hosts: six spaces, then the name. -/
def listingExt : Ext :=
  { quietExt with
    exec := fun _ _ fs =>
      { startErr := none, pid := 4242, exitErr := none,
        stdout := "      web1\n      web2\n", stderr := "", fs := fs, stopped := false } }

/-- The sample task in a world where the requirements file is there, no digest is
stored, and the digest file cannot be written. -/
def reqSt : St :=
  { sampleSt with
    w := { emptyWorld with
      fs := { files := [("/tmp/semaphore/repository_5_3/roles/requirements.yml",
                          { data := some "- src: geerlingguy.nginx", perm := 0o644 })],
              faulty := [],
              readOnly := ["/tmp/semaphore/repository_5_3/requirements.md5"] } } }

/-- The same world with a digest file that can be written. -/
def reqWritableSt : St :=
  { reqSt with w := { reqSt.w with fs := { reqSt.w.fs with readOnly := [] } } }

/-- The sample task with an inventory that carries an SSH key but no reference to it. -/
def unreferencedKeySt : St :=
  { sampleSt with
    t := { sampleTask with
      inventory := { sampleTask.inventory with SSHKeyID := none, SSHKey := plainSshKey } } }

/-- The sample task in debug and dry-run mode, with an inventory of type file that
refers to an SSH key, and a template with a vault credential. -/
def fullArgsSt : St :=
  { sampleSt with
    t := { sampleTask with
      task := { sampleTask.task with Debug := true, DryRun := true }
      template := { sampleTask.template with
        VaultPassID := some 12
        VaultPass := { noKey with ID := 12, Type_ := AccessKeyLoginPassword } }
      inventory := { sampleTask.inventory with
        Type_ := "file"
        Inventory := "hosts/prod"
        SSHKeyID := some 11
        SSHKey := plainSshKey } } }

/-- An outside like the quiet one in which the repository comes with an SSH key that
is protected by a passphrase. -/
def lockedRepoExt : Ext :=
  { quietExt with
    getRepository := fun _ _ _ => ({ sampleRepository with SSHKey := lockedSshKey }, none) }

/-! ## Theorems -/

theorem updateStatus_task (x : Ext) (s : St) : (task.updateStatus x s).2.t = s.t := by
  unfold task.updateStatus task.panicOnError task.log
  cases x.updateTaskErr s.w.tick s.t.task <;> rfl

theorem updateStatus_updates (x : Ext) (s : St) :
    (task.updateStatus x s).2.w.updates = s.w.updates ++ [s.t.task] := by
  unfold task.updateStatus task.panicOnError task.log
  cases x.updateTaskErr s.w.tick s.t.task <;> rfl

/-- C1: the status write discipline of setStatus.  From status stopping, the targets
error and stopped both store stopped (in the task and in the write handed to the
store), and every other target panics and leaves the runner and the world untouched,
so the status stays stopping; from any other status the target is stored as given. -/
theorem setStatus_discipline (x : Ext) (s : St) (status : String) :
    (s.t.task.Status = taskStoppingStatus →
      ((status = taskFailStatus ∨ status = taskStoppedStatus) →
        (task.setStatus x status s).2.t.task.Status = taskStoppedStatus ∧
        (task.setStatus x status s).2.w.updates
          = s.w.updates ++ [{ s.t.task with Status := taskStoppedStatus }]) ∧
      ((status ≠ taskFailStatus ∧ status ≠ taskStoppedStatus) →
        task.setStatus x status s = (Outcome.panic ("stopping task cannot be " ++ status), s) ∧
        (task.setStatus x status s).2.t.task.Status = taskStoppingStatus)) ∧
    (s.t.task.Status ≠ taskStoppingStatus →
      (task.setStatus x status s).2.t.task.Status = status ∧
      (task.setStatus x status s).2.w.updates = s.w.updates ++ [{ s.t.task with Status := status }]) := by
  refine ⟨fun hs => ⟨fun h => ?_, fun h => ?_⟩, fun hs => ?_⟩
  · rcases h with h | h
    · subst h
      simp [task.setStatus, hs, updateStatus_task, updateStatus_updates, St.withStatus]
    · subst h
      have hne : taskStoppedStatus ≠ taskFailStatus := by decide
      simp [task.setStatus, hs, hne, updateStatus_task, updateStatus_updates, St.withStatus]
  · obtain ⟨h1, h2⟩ := h
    simp [task.setStatus, hs, h1, h2]
  · simp [task.setStatus, hs, updateStatus_task, updateStatus_updates, St.withStatus]

theorem setStatus_discipline_witness :
    (task.setStatus quietExt taskFailStatus stoppingSt).2.t.task.Status = taskStoppedStatus ∧
    task.setStatus quietExt taskSuccessStatus stoppingSt
      = (Outcome.panic "stopping task cannot be success", stoppingSt) ∧
    (task.setStatus quietExt taskRunningStatus sampleSt).2.t.task.Status = taskRunningStatus :=
  ⟨(((setStatus_discipline quietExt stoppingSt taskFailStatus).1 rfl).1 (Or.inl rfl)).1,
   (((setStatus_discipline quietExt stoppingSt taskSuccessStatus).1 rfl).2
      ⟨by decide, by decide⟩).1,
   ((setStatus_discipline quietExt sampleSt taskRunningStatus).2 (by decide)).1⟩

theorem finished_ne_running (p u : String) :
    p ++ (" finished - " ++ u) ≠ p ++ " is running" := by
  intro h
  have h2 := congrArg String.data h
  simp only [String.data_append, List.append_cancel_left_eq] at h2
  have h3 := congrArg (fun l => l.get? 1) h2
  simp at h3

theorem updateStatus_frame (x : Ext) (s : St) :
    (task.updateStatus x s).2.w.commands = s.w.commands ∧
    (task.updateStatus x s).2.w.events = s.w.events := by
  unfold task.updateStatus task.panicOnError task.log
  cases x.updateTaskErr s.w.tick s.t.task <;> exact ⟨rfl, rfl⟩

theorem destroyKey_frame (x : Ext) (key : AccessKey) (s : St) :
    (task.destroyKey x key s).2.t = s.t ∧
    (task.destroyKey x key s).2.w.commands = s.w.commands ∧
    (task.destroyKey x key s).2.w.events = s.w.events := by
  unfold task.destroyKey
  dsimp only
  split
  · exact ⟨rfl, rfl, rfl⟩
  · split <;> exact ⟨rfl, rfl, rfl⟩

theorem destroyKeys_frame (x : Ext) (s : St) :
    (task.destroyKeys x s).t = s.t ∧
    (task.destroyKeys x s).w.commands = s.w.commands ∧
    (task.destroyKeys x s).w.events = s.w.events := by
  unfold task.destroyKeys
  obtain ⟨a1, a2, a3⟩ := destroyKey_frame x s.t.repository.SSHKey s
  generalize task.destroyKey x s.t.repository.SSHKey s = r1 at a1 a2 a3 ⊢
  obtain ⟨e1, s1⟩ := r1
  simp only at a1 a2 a3
  have hb : ∀ (s1' : St), s1'.t = s.t → s1'.w.commands = s.w.commands → s1'.w.events = s.w.events →
      (match task.destroyKey x s1'.t.inventory.SSHKey s1' with
        | (some e, s2) => task.log ("Can't destroy inventory SSH key, error: " ++ e) s2
        | (none, s2) => s2).t = s.t ∧
      (match task.destroyKey x s1'.t.inventory.SSHKey s1' with
        | (some e, s2) => task.log ("Can't destroy inventory SSH key, error: " ++ e) s2
        | (none, s2) => s2).w.commands = s.w.commands ∧
      (match task.destroyKey x s1'.t.inventory.SSHKey s1' with
        | (some e, s2) => task.log ("Can't destroy inventory SSH key, error: " ++ e) s2
        | (none, s2) => s2).w.events = s.w.events := by
    intro s1' b1 b2 b3
    obtain ⟨c1, c2, c3⟩ := destroyKey_frame x s1'.t.inventory.SSHKey s1'
    generalize task.destroyKey x s1'.t.inventory.SSHKey s1' = r2 at c1 c2 c3 ⊢
    obtain ⟨e2, s2⟩ := r2
    simp only at c1 c2 c3
    cases e2 <;> simp [task.log, c1, c2, c3, b1, b2, b3]
  cases e1
  · exact hb s1 a1 a2 a3
  · exact hb (task.log _ s1) a1 a2 a3

theorem createTaskEvent_frame (x : Ext) (s : St) :
    (task.createTaskEvent x s).2.t = s.t ∧
    (task.createTaskEvent x s).2.w.commands = s.w.commands ∧
    (task.createTaskEvent x s).2.w.events
      = s.w.events ++ [s.t.eventOf (" finished - " ++ x.lib.toUpper s.t.task.Status)] := by
  unfold task.createTaskEvent storeCreateEvent task.panicOnError task.log
  dsimp only
  cases x.createEventErr s.w.tick (s.t.eventOf (" finished - " ++ x.lib.toUpper s.t.task.Status)) <;>
    exact ⟨rfl, rfl, rfl⟩

theorem runDeferredTail_frame (x : Ext) (s2 : St) :
    (task.runDeferredTail x s2).2.t = s2.t ∧
    (task.runDeferredTail x s2).2.w.commands = s2.w.commands ∧
    ((task.runDeferredTail x s2).2.w.events = s2.w.events ∨
     (task.runDeferredTail x s2).2.w.events
       = s2.w.events ++ [s2.t.eventOf (" finished - " ++ x.lib.toUpper s2.t.task.Status)]) := by
  unfold task.runDeferredTail
  have u1 := updateStatus_task x s2
  obtain ⟨u2, u3⟩ := updateStatus_frame x s2
  generalize task.updateStatus x s2 = r3 at u1 u2 u3 ⊢
  obtain ⟨o3, s3⟩ := r3
  simp only at u1 u2 u3
  cases o3 with
  | panic m => simp [u1, u2, u3]
  | done =>
    dsimp only
    obtain ⟨v1, v2, v3⟩ := createTaskEvent_frame x s3
    generalize task.createTaskEvent x s3 = r4 at v1 v2 v3 ⊢
    obtain ⟨o4, s4⟩ := r4
    simp only at v1 v2 v3
    obtain ⟨d1, d2, d3⟩ := destroyKeys_frame x s4
    cases o4 with
    | panic m => simp [v1, v2, v3, u1, u2, u3]
    | done => simp [d1, d2, d3, v1, v2, v3, u1, u2, u3]

/-- The deferred function of run keeps status, start, process handle and the commands
run so far, sets the end timestamp, and writes at most the terminal event. -/
theorem runDeferred_frame (x : Ext) (s : St) :
    (task.runDeferred x s).2.t
      = { s.t with task := { s.t.task with End := some (x.now s.w.tick) } } ∧
    (task.runDeferred x s).2.w.commands = s.w.commands ∧
    ((task.runDeferred x s).2.w.events = s.w.events ∨
     (task.runDeferred x s).2.w.events
       = s.w.events ++ [s.t.eventOf (" finished - " ++ x.lib.toUpper s.t.task.Status)]) := by
  unfold task.runDeferred
  dsimp only
  refine ⟨(runDeferredTail_frame x _).1, (runDeferredTail_frame x _).2.1, ?_⟩
  exact (runDeferredTail_frame x _).2.2

/-- C2: a task that enters run with status stopping ends with status stopped; no
external command is run (so the executor is not launched) and the process handle is
left as it was; the start timestamp is unchanged; and the events written are at most
the terminal event, none of them the event that says the task is running. -/
theorem run_from_stopping (x : Ext) (s : St) (h : s.t.task.Status = taskStoppingStatus) :
    (task.run x s).2.t.task.Status = taskStoppedStatus ∧
    (task.run x s).2.w.commands = s.w.commands ∧
    (task.run x s).2.t.process = s.t.process ∧
    (task.run x s).2.t.task.Start = s.t.task.Start ∧
    (∃ evs, (task.run x s).2.w.events = s.w.events ++ evs ∧
      (evs = [] ∨ evs = [s.t.eventOf (" finished - " ++ x.lib.toUpper taskStoppedStatus)]) ∧
      ∀ ev ∈ evs, ev.Description ≠ (s.t.eventOf " is running").Description) := by
  have hb : task.runBody x s = task.updateStatus x (s.withStatus taskStoppedStatus) := by
    have hne : taskStoppedStatus ≠ taskFailStatus := by decide
    simp [task.runBody, task.setStatus, h, hne]
  have b1 := updateStatus_task x (s.withStatus taskStoppedStatus)
  obtain ⟨b2, b3⟩ := updateStatus_frame x (s.withStatus taskStoppedStatus)
  rw [← hb] at b1 b2 b3
  unfold task.run
  generalize task.runBody x s = rb at b1 b2 b3 ⊢
  obtain ⟨o1, s1⟩ := rb
  simp only at b1 b2 b3
  dsimp only
  obtain ⟨d1, d2, d3⟩ := runDeferred_frame x s1
  generalize task.runDeferred x s1 = rd at d1 d2 d3 ⊢
  obtain ⟨o2, s2⟩ := rd
  simp only at d1 d2 d3
  have hfin : ∀ ev ∈ [s.t.eventOf (" finished - " ++ x.lib.toUpper taskStoppedStatus)],
      ev.Description ≠ (s.t.eventOf " is running").Description := by
    intro ev hev
    simp only [List.mem_singleton] at hev
    subst hev
    simp only [task.eventOf, ne_eq, Option.some.injEq]
    exact finished_ne_running _ _
  have hres : s2.t.task.Status = taskStoppedStatus ∧ s2.w.commands = s.w.commands ∧
      s2.t.process = s.t.process ∧ s2.t.task.Start = s.t.task.Start ∧
      (∃ evs, s2.w.events = s.w.events ++ evs ∧
        (evs = [] ∨ evs = [s.t.eventOf (" finished - " ++ x.lib.toUpper taskStoppedStatus)]) ∧
        ∀ ev ∈ evs, ev.Description ≠ (s.t.eventOf " is running").Description) := by
    refine ⟨by simp [d1, b1, St.withStatus], by simp [d2, b2, St.withStatus],
      by simp [d1, b1, St.withStatus], by simp [d1, b1, St.withStatus], ?_⟩
    rcases d3 with d3 | d3
    · exact ⟨[], by simp [d3, b3, St.withStatus], Or.inl rfl, by simp⟩
    · refine ⟨[s.t.eventOf (" finished - " ++ x.lib.toUpper taskStoppedStatus)], ?_, Or.inr rfl, hfin⟩
      simp [d3, b3, b1, St.withStatus, task.eventOf]
  cases o2 <;> exact hres

theorem run_from_stopping_witness :
    stoppingSt.t.task.Status = taskStoppingStatus ∧
    (task.run quietExt stoppingSt).2.t.task.Status = taskStoppedStatus ∧
    (task.run quietExt stoppingSt).2.w.commands = [] ∧
    (task.run quietExt stoppingSt).2.t.process = none ∧
    (task.run quietExt stoppingSt).2.t.task.Start = none :=
  ⟨rfl, (run_from_stopping quietExt stoppingSt rfl).1, (run_from_stopping quietExt stoppingSt rfl).2.1,
    (run_from_stopping quietExt stoppingSt rfl).2.2.1, (run_from_stopping quietExt stoppingSt rfl).2.2.2.1⟩

theorem string_length_eq_zero (a : String) : a.length = 0 ↔ a = "" := by
  constructor
  · intro h
    have : a.data = [] := List.length_eq_zero.mp h
    exact String.ext this
  · intro h
    subst h
    rfl

/-- C3: with OverrideArguments off and both argument texts decoding to string lists,
getPlaybookArgs succeeds and its argv ends with the template arguments, then the task
arguments, then the effective playbook (that of the task unless it is empty). -/
theorem getPlaybookArgs_suffix (x : Ext) (s : St) (ta ka : List String)
    (ho : s.t.template.OverrideArguments = false)
    (hta : unmarshalArguments x.lib s.t.template.Arguments = Except.ok ta)
    (hka : unmarshalArguments x.lib s.t.task.Arguments = Except.ok ka) :
    ∃ argv, (task.getPlaybookArgs x s).1 = Except.ok argv ∧
      (ta ++ ka ++ [if s.t.task.Playbook = "" then s.t.template.Playbook else s.t.task.Playbook])
        <:+ argv := by
  unfold task.getPlaybookArgs
  dsimp only
  generalize task.addExtraVars x (s.t.leadingArgs x) s = r
  obtain ⟨args, s1⟩ := r
  simp only [hta, hka, ho, Bool.false_eq_true, if_false]
  refine ⟨_, rfl, ?_⟩
  have hp : s.t.playbookName
      = if s.t.task.Playbook = "" then s.t.template.Playbook else s.t.task.Playbook := by
    simp only [task.playbookName, string_length_eq_zero]
  rw [hp]
  simp only [List.append_assoc]
  exact List.suffix_append _ _

/-- C4: with OverrideArguments on and both argument texts decoding, the argv of
getPlaybookArgs is the template argument vector and nothing else. -/
theorem getPlaybookArgs_override (x : Ext) (s : St) (ta ka : List String)
    (ho : s.t.template.OverrideArguments = true)
    (hta : unmarshalArguments x.lib s.t.template.Arguments = Except.ok ta)
    (hka : unmarshalArguments x.lib s.t.task.Arguments = Except.ok ka) :
    (task.getPlaybookArgs x s).1 = Except.ok ta := by
  unfold task.getPlaybookArgs
  dsimp only
  generalize task.addExtraVars x (s.t.leadingArgs x) s = r
  obtain ⟨args, s1⟩ := r
  simp only [hta, hka, ho, if_true]

theorem getPlaybookArgs_suffix_witness :
    ∃ argv, (task.getPlaybookArgs quietExt argsSt).1 = Except.ok argv ∧
      ["--tags", "web", "--limit", "web1", "deploy.yml"] <:+ argv :=
  getPlaybookArgs_suffix quietExt argsSt ["--tags", "web"] ["--limit", "web1"] rfl rfl rfl

theorem getPlaybookArgs_override_witness :
    (task.getPlaybookArgs quietExt overrideSt).1 = Except.ok ["-i", "custom", "site.yml"] :=
  getPlaybookArgs_override quietExt overrideSt ["-i", "custom", "site.yml"] [] rfl rfl rfl

theorem splitChars_ne_nil (sep : Char) (cs : List Char) : splitChars sep cs ≠ [] := by
  cases cs with
  | nil => simp [splitChars]
  | cons c cs =>
    unfold splitChars
    split
    · simp
    · split <;> simp

theorem splitChars_no_sep (sep : Char) (cs : List Char) (h : sep ∉ cs) :
    splitChars sep cs = [cs] := by
  induction cs with
  | nil => rfl
  | cons c cs ih =>
    have hc : c ≠ sep := fun e => h (e ▸ List.mem_cons_self _ _)
    have hcs : sep ∉ cs := fun m => h (List.mem_cons_of_mem _ m)
    simp [splitChars, hc, ih hcs]

theorem splitChars_append_sep (sep : Char) (us rs : List Char) (h : sep ∉ us) :
    splitChars sep (us ++ sep :: rs) = us :: splitChars sep rs := by
  induction us with
  | nil => simp [splitChars]
  | cons c cs ih =>
    have hc : c ≠ sep := fun e => h (e ▸ List.mem_cons_self _ _)
    have hcs : sep ∉ cs := fun m => h (List.mem_cons_of_mem _ m)
    simp [splitChars, hc, ih hcs]

theorem hash_data : ("#" : String).data = [Char.ofNat 35] := by decide

/-- C5 (as amended): for a remote without the hash sign and a ref without the hash
sign, the URL remote#ref is parsed to the pair (remote, ref); a bare remote without
the hash sign is parsed to (remote, master). -/
theorem repoURLAndTag_roundtrip (u r : String)
    (hu : Char.ofNat 35 ∉ u.data) (hr : Char.ofNat 35 ∉ r.data) :
    repoURLAndTag (u ++ "#" ++ r) = (u, r) ∧ repoURLAndTag u = (u, "master") := by
  constructor
  · have h1 : splitHash (u ++ "#" ++ r) = [u, r] := by
      unfold splitHash
      simp only [String.data_append, hash_data, List.append_assoc, List.singleton_append]
      rw [splitChars_append_sep _ _ _ hu, splitChars_no_sep _ _ hr]
      rfl
    simp [repoURLAndTag, h1]
  · have h1 : splitHash u = [u] := by
      unfold splitHash
      rw [splitChars_no_sep _ _ hu]
      rfl
    simp [repoURLAndTag, h1]

theorem repoURLAndTag_roundtrip_witness :
    repoURLAndTag ("git@example.com:ops/playbooks.git" ++ "#" ++ "release-2") =
        ("git@example.com:ops/playbooks.git", "release-2") ∧
      repoURLAndTag "git@example.com:ops/playbooks.git" =
        ("git@example.com:ops/playbooks.git", "master") :=
  repoURLAndTag_roundtrip "git@example.com:ops/playbooks.git" "release-2" (by decide) (by decide)

/-- C5 (as stated) fails: a ref that holds a hash sign does not come back; the remote
has no hash sign, and the ref fix#1 is cut to fix. -/
theorem repoURLAndTag_ref_with_hash :
    Char.ofNat 35 ∉ ("git@example.com:ops/playbooks.git" : String).data ∧
    repoURLAndTag ("git@example.com:ops/playbooks.git" ++ "#" ++ "fix#1") =
      ("git@example.com:ops/playbooks.git", "fix") ∧
    repoURLAndTag ("git@example.com:ops/playbooks.git" ++ "#" ++ "fix#1") ≠
      ("git@example.com:ops/playbooks.git", "fix#1") := by
  decide

theorem GoMap.get_delete (m : GoMap) (k k2 : String) :
    (GoMap.delete m k).get k2 = if k2 = k then none else m.get k2 := by
  unfold GoMap.get GoMap.delete
  induction m with
  | nil => simp
  | cons e m ih =>
    obtain ⟨a, b⟩ := e
    by_cases ha : a = k
    · subst ha
      by_cases hk : k2 = a
      · subst hk
        simpa [List.filter_cons, List.lookup_cons] using ih
      · have : (k2 == a) = false := by simpa using hk
        simp [List.filter_cons, List.lookup_cons, this, hk] at ih ⊢
        exact ih
    · have h1 : (a != k) = true := by simpa using ha
      by_cases hk : k2 = k
      · subst hk
        have h2 : (k2 == a) = false := by simpa using fun e => ha e.symm
        simp [List.filter_cons, h1, List.lookup_cons, h2] at ih ⊢
        exact ih
      · simp only [List.filter_cons, h1, if_true, List.lookup_cons, hk, if_false] at ih ⊢
        cases hka : (k2 == a) with
        | true => rfl
        | false => simpa using ih

theorem GoMap.get_set (m : GoMap) (k k2 : String) (v : Json) :
    (GoMap.set m k v).get k2 = if k2 = k then some v else m.get k2 := by
  by_cases hk : k2 = k
  · subst hk
    simp [GoMap.set, GoMap.get, List.lookup_cons]
  · have h : (k2 == k) = false := by simpa using hk
    have hd := GoMap.get_delete m k k2
    simp only [hk, if_false] at hd
    simp only [GoMap.set, hk, if_false]
    unfold GoMap.get at hd ⊢
    simp [List.lookup_cons, h, hd]

theorem GoMap.assign_append (m : GoMap) (ms : List (String × Json)) (e : String × Json) :
    GoMap.assign m (ms ++ [e]) = GoMap.set (GoMap.assign m ms) e.1 e.2 := by
  simp [GoMap.assign, List.foldl_append]

theorem GoMap.assign_cons (m : GoMap) (e : String × Json) (ms : List (String × Json)) :
    GoMap.assign m (e :: ms) = GoMap.assign (GoMap.set m e.1 e.2) ms := by
  simp [GoMap.assign]

theorem GoMap.assign_concat (m : GoMap) (ms ns : List (String × Json)) :
    GoMap.assign m (ms ++ ns) = GoMap.assign (GoMap.assign m ms) ns := by
  simp [GoMap.assign, List.foldl_append]

/-- Members that do not bind a key leave the value of the key as it was. -/
theorem GoMap.get_assign_of_not_mem (post : List (String × Json)) (m : GoMap) (k : String)
    (h : k ∉ post.map Prod.fst) : (GoMap.assign m post).get k = m.get k := by
  induction post generalizing m with
  | nil => rfl
  | cons e post ih =>
    have hk : k ≠ e.1 := fun e1 => h (by simp [e1])
    have hp : k ∉ post.map Prod.fst := fun hm => h (by simp [List.mem_map] at hm ⊢; exact Or.inr hm)
    rw [GoMap.assign_cons, ih _ hp, GoMap.get_set]
    simp [hk]

/-- The last member that binds a key decides the value of the key. -/
theorem GoMap.get_assign_last (pre post : List (String × Json)) (m : GoMap) (k : String)
    (v : Json) (h : k ∉ post.map Prod.fst) :
    (GoMap.assign m (pre ++ (k, v) :: post)).get k = some v := by
  rw [GoMap.assign_concat, GoMap.assign_cons, GoMap.get_assign_of_not_mem _ _ _ h, GoMap.get_set]
  simp

/-- A key bound in the map of an object is bound by a member after which no member
has the key. -/
theorem GoMap.last_of_get (ms : List (String × Json)) (k : String) (v : Json)
    (h : (GoMap.assign [] ms).get k = some v) :
    ∃ pre post, ms = pre ++ (k, v) :: post ∧ k ∉ post.map Prod.fst := by
  induction ms using List.reverseRecOn generalizing v with
  | nil => simp [GoMap.assign, GoMap.get] at h
  | append_singleton ms e ih =>
    rw [GoMap.assign_append, GoMap.get_set] at h
    by_cases hk : k = e.1
    · simp only [hk, if_true, Option.some.injEq] at h
      refine ⟨ms, [], ?_, by simp⟩
      rw [hk, ← h]
    · simp only [hk, if_false] at h
      obtain ⟨pre, post, h1, h2⟩ := ih v h
      refine ⟨pre, post ++ [e], by simp [h1], ?_⟩
      intro hm
      simp only [List.map_append, List.mem_append, List.map_cons, List.map_nil,
        List.mem_singleton] at hm
      rcases hm with hm | hm
      · exact h2 hm
      · exact hk hm

theorem GoMap.get_of_mem_nodup (m : GoMap) (k : String) (v : Json)
    (hn : (m.map Prod.fst).Nodup) (h : (k, v) ∈ m) : m.get k = some v := by
  unfold GoMap.get
  induction m with
  | nil => simp at h
  | cons e m ih =>
    obtain ⟨a, b⟩ := e
    simp only [List.map_cons, List.nodup_cons] at hn
    rw [List.lookup_cons]
    rcases List.mem_cons.mp h with h1 | h1
    · simp only [Prod.mk.injEq] at h1
      obtain ⟨h2, h3⟩ := h1
      subst h2
      subst h3
      simp
    · have hka : k ≠ a := by
        intro e1
        subst e1
        exact hn.1 (List.mem_map.mpr ⟨(k, v), h1, rfl⟩)
      have : (k == a) = false := by simpa using hka
      rw [this]
      exact ih hn.2 h1

/-- C6: when the environment text decodes to an object, getExtraVars succeeds with the
JSON text of a mapping that has no key ENV and that gives every other key of the
environment the value of the last member of the environment with that key (over
whatever the credentials had put under the key). -/
theorem getExtraVars_overlay (x : Ext) (t : Semaphore.task) (members : List (String × Json))
    (h : x.lib.jsonDecode t.environment.JSON = some (Json.obj members)) :
    ∃ m : GoMap, t.getExtraVars x = Except.ok (x.lib.jsonEncode (Json.obj m)) ∧
      m.get "ENV" = none ∧
      ∀ pre post k v, members = pre ++ (k, v) :: post → k ∉ post.map Prod.fst → k ≠ "ENV" →
        m.get k = some v := by
  have hne : t.environment.JSON ≠ "" := by
    intro e
    rw [e, x.lib.jsonDecode_empty] at h
    cases h
  refine ⟨GoMap.delete (GoMap.assign t.credentialVars members) "ENV", ?_, ?_, ?_⟩
  · simp [task.getExtraVars, hne, unmarshalMap, h]
  · simp [GoMap.get_delete]
  · intro pre post k v hm hlast hk
    rw [GoMap.get_delete]
    simp only [hk, if_false]
    rw [hm]
    exact GoMap.get_assign_last pre post _ k v hlast

theorem getExtraVars_overlay_witness :
    (∃ m : GoMap, envTask.getExtraVars quietExt = Except.ok (refEncode (Json.obj m)) ∧
      m.get "ENV" = none ∧
      ∀ pre post k v,
        [("foo", Json.str "bar"), ("ENV", Json.obj [("HTTP_PROXY", Json.str "http://p:8080")])]
          = pre ++ (k, v) :: post →
        k ∉ post.map Prod.fst → k ≠ "ENV" → m.get k = some v) ∧
    envTask.getExtraVars quietExt = Except.ok "\x7b\"foo\":\"bar\"\x7d" :=
  ⟨getExtraVars_overlay quietExt envTask
      [("foo", Json.str "bar"), ("ENV", Json.obj [("HTTP_PROXY", Json.str "http://p:8080")])] rfl,
    rfl⟩

theorem GoMap.mem_of_get (m : GoMap) (k : String) (v : Json) (h : m.get k = some v) :
    (k, v) ∈ m := by
  unfold GoMap.get at h
  induction m with
  | nil => simp at h
  | cons e m ih =>
    obtain ⟨a, b⟩ := e
    rw [List.lookup_cons] at h
    cases hka : (k == a) with
    | true =>
      rw [hka] at h
      have : k = a := by simpa using hka
      simp only [Option.some.injEq] at h
      subst this
      subst h
      exact List.mem_cons_self _ _
    | false =>
      rw [hka] at h
      exact List.mem_cons_of_mem _ (ih h)

theorem GoMap.keys_delete_nodup (m : GoMap) (k : String) (h : (m.map Prod.fst).Nodup) :
    ((GoMap.delete m k).map Prod.fst).Nodup ∧ k ∉ (GoMap.delete m k).map Prod.fst := by
  unfold GoMap.delete
  constructor
  · exact (List.filter_sublist m).map Prod.fst |>.nodup h
  · intro hm
    obtain ⟨e, he, hk⟩ := List.mem_map.mp hm
    have := (List.mem_filter.mp he).2
    simp [hk] at this

theorem GoMap.keys_assign_nodup (ms : List (String × Json)) (m : GoMap)
    (h : (m.map Prod.fst).Nodup) : ((GoMap.assign m ms).map Prod.fst).Nodup := by
  induction ms generalizing m with
  | nil => simpa [GoMap.assign] using h
  | cons e ms ih =>
    have : GoMap.assign m (e :: ms) = GoMap.assign (GoMap.set m e.1 e.2) ms := by
      simp [GoMap.assign]
    rw [this]
    apply ih
    obtain ⟨h1, h2⟩ := GoMap.keys_delete_nodup m e.1 h
    simp only [GoMap.set, List.map_cons, List.nodup_cons]
    exact ⟨h2, h1⟩

/-- C7: extractCommandEnvironment.  When the text decodes to an object whose member ENV
(the last one of that name) is an object, the result is, up to order, one entry
key=value for each key of that ENV object: the entries come from a list of pairs with
distinct keys that holds exactly the last member of the ENV object for each of its
keys, and for a string value the entry is the key, the equals sign and the string.
When the text does not decode, decodes to something that is not an object, has no
member ENV, or has a member ENV that is not an object, the result is empty. -/
theorem extractCommandEnvironment_spec (lib : GoLib) (envJSON : String) :
    (∀ members pre post envMembers, lib.jsonDecode envJSON = some (Json.obj members) →
      members = pre ++ ("ENV", Json.obj envMembers) :: post → "ENV" ∉ post.map Prod.fst →
      ∃ entries : List (String × Json),
        List.Perm (extractCommandEnvironment lib envJSON)
          (entries.map (fun e => e.1 ++ "=" ++ sprintS lib e.2)) ∧
        (entries.map Prod.fst).Nodup ∧
        (∀ k v, (k, v) ∈ entries ↔
          ∃ pre2 post2, envMembers = pre2 ++ (k, v) :: post2 ∧ k ∉ post2.map Prod.fst) ∧
        ∀ k s, (k, Json.str s) ∈ entries →
          (k ++ "=" ++ s) ∈ extractCommandEnvironment lib envJSON) ∧
    (lib.jsonDecode envJSON = none → extractCommandEnvironment lib envJSON = []) ∧
    (∀ v, lib.jsonDecode envJSON = some v → (∀ ms, v ≠ Json.obj ms) →
      extractCommandEnvironment lib envJSON = []) ∧
    (∀ members, lib.jsonDecode envJSON = some (Json.obj members) →
      "ENV" ∉ members.map Prod.fst → extractCommandEnvironment lib envJSON = []) ∧
    (∀ members pre post v, lib.jsonDecode envJSON = some (Json.obj members) →
      members = pre ++ ("ENV", v) :: post → "ENV" ∉ post.map Prod.fst → (∀ ems, v ≠ Json.obj ems) →
      extractCommandEnvironment lib envJSON = []) := by
  refine ⟨?_, ?_, ?_, ?_, ?_⟩
  · intro members pre post envMembers hd hm hlast
    have he : (GoMap.assign [] members).get "ENV" = some (Json.obj envMembers) := by
      rw [hm]
      exact GoMap.get_assign_last pre post [] "ENV" _ hlast
    have hres : extractCommandEnvironment lib envJSON
        = (lib.rangeOrder (GoMap.assign [] envMembers)).map
            (fun e => e.1 ++ "=" ++ sprintS lib e.2) := by
      simp [extractCommandEnvironment, unmarshalMap, hd, he]
    have hperm : List.Perm (extractCommandEnvironment lib envJSON)
        ((GoMap.assign [] envMembers).map (fun e => e.1 ++ "=" ++ sprintS lib e.2)) := by
      rw [hres]
      exact (lib.rangeOrder_perm _).map _
    have hnd := GoMap.keys_assign_nodup envMembers [] (by simp)
    refine ⟨GoMap.assign [] envMembers, hperm, hnd, ?_, ?_⟩
    · intro k v
      constructor
      · intro hmem
        exact GoMap.last_of_get envMembers k v (GoMap.get_of_mem_nodup _ k v hnd hmem)
      · rintro ⟨pre2, post2, h1, h2⟩
        apply GoMap.mem_of_get
        rw [h1]
        exact GoMap.get_assign_last pre2 post2 [] k v h2
    · intro k s hk
      apply hperm.symm.subset
      exact List.mem_map.mpr ⟨(k, Json.str s), hk, rfl⟩
  · intro hd
    simp [extractCommandEnvironment, unmarshalMap, hd]
  · intro v hd hv
    cases v with
    | null => simp [extractCommandEnvironment, unmarshalMap, hd, GoMap.get]
    | obj ms => exact absurd rfl (hv ms)
    | bool b => simp [extractCommandEnvironment, unmarshalMap, hd]
    | num l => simp [extractCommandEnvironment, unmarshalMap, hd]
    | str l => simp [extractCommandEnvironment, unmarshalMap, hd]
    | arr l => simp [extractCommandEnvironment, unmarshalMap, hd]
  · intro members hd hno
    have he : (GoMap.assign [] members).get "ENV" = none := by
      rw [GoMap.get_assign_of_not_mem members [] "ENV" hno]
      rfl
    simp [extractCommandEnvironment, unmarshalMap, hd, he]
  · intro members pre post v hd hm hlast hv
    have he : (GoMap.assign [] members).get "ENV" = some v := by
      rw [hm]
      exact GoMap.get_assign_last pre post [] "ENV" _ hlast
    cases v with
    | obj ms => exact absurd rfl (hv ms)
    | null => simp [extractCommandEnvironment, unmarshalMap, hd, he]
    | bool b => simp [extractCommandEnvironment, unmarshalMap, hd, he]
    | num l => simp [extractCommandEnvironment, unmarshalMap, hd, he]
    | str l => simp [extractCommandEnvironment, unmarshalMap, hd, he]
    | arr l => simp [extractCommandEnvironment, unmarshalMap, hd, he]

theorem extractCommandEnvironment_spec_witness :
    (∃ entries : List (String × Json),
      List.Perm (extractCommandEnvironment refLib envTask.environment.JSON)
        (entries.map (fun e => e.1 ++ "=" ++ sprintS refLib e.2)) ∧
      (entries.map Prod.fst).Nodup ∧
      (∀ k v, (k, v) ∈ entries ↔
        ∃ pre2 post2, [("HTTP_PROXY", Json.str "http://p:8080")] = pre2 ++ (k, v) :: post2 ∧
          k ∉ post2.map Prod.fst) ∧
      ∀ k s, (k, Json.str s) ∈ entries →
        (k ++ "=" ++ s) ∈ extractCommandEnvironment refLib envTask.environment.JSON) ∧
    extractCommandEnvironment refLib envTask.environment.JSON = ["HTTP_PROXY=http://p:8080"] ∧
    extractCommandEnvironment refLib "not json" = [] ∧
    extractCommandEnvironment refLib "\x7b\"foo\":\"bar\"\x7d" = [] :=
  ⟨(extractCommandEnvironment_spec refLib envTask.environment.JSON).1
      [("foo", Json.str "bar"), ("ENV", Json.obj [("HTTP_PROXY", Json.str "http://p:8080")])]
      [("foo", Json.str "bar")] [] [("HTTP_PROXY", Json.str "http://p:8080")] rfl rfl (by simp),
   by decide,
   (extractCommandEnvironment_spec refLib "not json").2.1 rfl,
   (extractCommandEnvironment_spec refLib "\x7b\"foo\":\"bar\"\x7d").2.2.2.1
      [("foo", Json.str "bar")] rfl (by simp)⟩

theorem FS.find_put (fs : FS) (path : String) (n : FileNode) :
    (fs.put path n).find path = some n := by
  simp [FS.put, FS.find, List.lookup_cons]

theorem FS.writeFile_ok (fs fs1 : FS) (path data : String) (perm : Nat)
    (h : fs.writeFile path data perm = Except.ok fs1) :
    fs1.readFile path = Except.ok data ∧ fs1.faulty = fs.faulty ∧ fs1.readOnly = fs.readOnly ∧
    (fs.find path = none → fs1.find path = some { data := some data, perm := perm }) := by
  unfold FS.writeFile at h
  split at h
  · cases h
  · rename_i hf
    have hnf : path ∉ fs.faulty := fun m => hf (Or.inl m)
    split at h <;>
      · simp only [Except.ok.injEq] at h
        subst h
        refine ⟨?_, rfl, rfl, ?_⟩
        · unfold FS.readFile
          rw [FS.find_put]
          have hput : ∀ n, (fs.put path n).faulty = fs.faulty := fun _ => rfl
          simp [hput, hnf]
        · intro hn
          simp_all [FS.find_put]

/-- C8: installKey.  For an SSH key with a passphrase it fails with a message that
contains the words passphrase not supported and leaves the filesystem as it was (a
path without a file still has none).  For a key of another type it succeeds and
changes nothing at all.  For an SSH key without passphrase it calls WriteFile with the
path of the key, the private key and mode 0600, and returns what that call returns:
when it succeeds the file at the path holds the private key, with mode 0600 when the
file was created. -/
theorem installKey_spec (x : Ext) (key : AccessKey) (s : St) :
    (key.Type_ = AccessKeySSH → key.SshKey.Passphrase ≠ "" →
      (∃ pre post, (task.installKey x key s).1
          = some (pre ++ "passphrase not supported" ++ post)) ∧
      (task.installKey x key s).2.w.fs = s.w.fs ∧
      (s.w.fs.find (key.GetPath x) = none →
        (task.installKey x key s).2.w.fs.find (key.GetPath x) = none)) ∧
    (key.Type_ ≠ AccessKeySSH → task.installKey x key s = (none, s)) ∧
    (key.Type_ = AccessKeySSH → key.SshKey.Passphrase = "" →
      (∀ fs1, s.w.fs.writeFile (key.GetPath x) key.SshKey.PrivateKey 0o600 = Except.ok fs1 →
        (task.installKey x key s).1 = none ∧ (task.installKey x key s).2.w.fs = fs1 ∧
        fs1.readFile (key.GetPath x) = Except.ok key.SshKey.PrivateKey ∧
        (s.w.fs.find (key.GetPath x) = none →
          fs1.find (key.GetPath x) = some { data := some key.SshKey.PrivateKey, perm := 0o600 })) ∧
      (∀ e, s.w.fs.writeFile (key.GetPath x) key.SshKey.PrivateKey 0o600 = Except.error e →
        (task.installKey x key s).1 = some e ∧ (task.installKey x key s).2.w.fs = s.w.fs)) := by
  refine ⟨fun ht hp => ?_, fun ht => ?_, fun ht hp => ⟨fun fs1 hw => ?_, fun e hw => ?_⟩⟩
  · have hr : task.installKey x key s
        = (some "ssh key with passphrase not supported",
            task.log ("access key " ++ key.Name ++ " installed") s) := by
      simp [task.installKey, ht, hp]
    rw [hr]
    exact ⟨⟨"ssh key with ", "", rfl⟩, rfl, fun h => h⟩
  · simp [task.installKey, ht]
  · have hw2 : (task.log ("access key " ++ key.Name ++ " installed") s).w.fs.writeFile
        (key.GetPath x) key.SshKey.PrivateKey 0o600 = Except.ok fs1 := hw
    have hr : task.installKey x key s
        = (none, { task.log ("access key " ++ key.Name ++ " installed") s with
            w := { (task.log ("access key " ++ key.Name ++ " installed") s).w with fs := fs1 } }) := by
      simp [task.installKey, ht, hp, hw2]
    rw [hr]
    obtain ⟨w1, _, _, w4⟩ := FS.writeFile_ok _ _ _ _ _ hw
    exact ⟨rfl, rfl, w1, w4⟩
  · have hw2 : (task.log ("access key " ++ key.Name ++ " installed") s).w.fs.writeFile
        (key.GetPath x) key.SshKey.PrivateKey 0o600 = Except.error e := hw
    have hr : task.installKey x key s
        = (some e, task.log ("access key " ++ key.Name ++ " installed") s) := by
      simp [task.installKey, ht, hp, hw2]
    rw [hr]
    exact ⟨rfl, rfl⟩

theorem installKey_spec_witness :
    ((∃ pre post, (task.installKey quietExt lockedSshKey sampleSt).1
        = some (pre ++ "passphrase not supported" ++ post)) ∧
      (task.installKey quietExt lockedSshKey sampleSt).2.w.fs = emptyFS) ∧
    (task.installKey quietExt noKey sampleSt).1 = none ∧
    (task.installKey quietExt plainSshKey sampleSt).2.w.fs.readFile "/tmp/semaphore/access_key_11"
      = Except.ok "-----BEGIN KEY-----" :=
  ⟨⟨((installKey_spec quietExt lockedSshKey sampleSt).1 rfl (by decide)).1,
     ((installKey_spec quietExt lockedSshKey sampleSt).1 rfl (by decide)).2.1⟩,
   congrArg Prod.fst ((installKey_spec quietExt noKey sampleSt).2.1 (by decide)),
   by
     obtain ⟨_, h2, h3, _⟩ := ((installKey_spec quietExt plainSshKey sampleSt).2.2 rfl rfl).1
       (emptyFS.put "/tmp/semaphore/access_key_11"
         { data := some "-----BEGIN KEY-----", perm := 0o600 }) rfl
     rw [h2]
     exact h3⟩

theorem hostsPattern_compiled :
    compileLinePattern hostsPattern = some [(Atom.lit backslash, 1), (Atom.lit 's', 6)] := by
  decide

theorem findAllCaptures_succ (lead : List (Atom × Nat)) (fuel limit : Nat) (prev : Option Char)
    (text : List Char) :
    findAllCaptures lead (fuel + 1) limit prev text =
      if limit = 0 then []
      else
        match (if atLineStart prev then matchLead lead none text else none) with
        | some (last, rest) =>
          (rest.takeWhile (fun c => c != newline)) ::
            findAllCaptures lead fuel (limit - 1)
              (match (rest.takeWhile (fun c => c != newline)).getLast? with
                | some c => some c
                | none => last)
              (rest.dropWhile (fun c => c != newline))
        | none =>
          match text with
          | [] => []
          | c :: cs => findAllCaptures lead fuel limit (some c) cs := by
  rfl

/-- The pattern of runner.go:472 finds nothing in a text without a backslash. -/
theorem findAllCaptures_no_backslash (more : List (Atom × Nat)) (fuel limit : Nat)
    (prev : Option Char) (text : List Char) (h : backslash ∉ text) :
    findAllCaptures ((Atom.lit backslash, 1) :: more) fuel limit prev text = [] := by
  induction fuel generalizing prev text with
  | zero => rfl
  | succ fuel ih =>
    rw [findAllCaptures_succ]
    by_cases hl : limit = 0
    · simp [hl]
    · have hm : matchLead ((Atom.lit backslash, 1) :: more) none text = none := by
        cases text with
        | nil => simp [matchLead, matchRepeat]
        | cons c cs =>
          have hc : backslash ≠ c := fun e => h (e ▸ List.mem_cons_self _ _)
          simp [matchLead, matchRepeat, Atom.accepts, hc]
      simp only [hl, if_false, hm, ite_self]
      cases text with
      | nil => rfl
      | cons c cs => exact ih (some c) cs (fun m => h (List.mem_cons_of_mem _ m))

/-- Whatever the executor prints, as long as it prints no backslash, the host list
taken from it is empty. -/
theorem hostsOfOutput_no_backslash (out : String) (h : backslash ∉ out.data) :
    hostsOfOutput hostsPattern out = [] := by
  simp [hostsOfOutput, hostsPattern_compiled, findAllCaptures_no_backslash _ _ _ _ _ h]

/-- C9 (code bug): the executor prints the lines of six spaces and a host name, and
listPlaybookHosts records no host at all; the same lines under the pattern with a
single backslash before the s give the two hosts. -/
theorem listPlaybookHosts_six_spaces :
    (task.listPlaybookHosts listingExt sampleSt).2.t.hosts = [] ∧
    hostsOfOutput hostsPattern "      web1\n      web2\n" = [] ∧
    hostsOfOutput ("(?m)^" ++ String.mk [backslash] ++ "s\x7b6\x7d(.*)$")
      "      web1\n      web2\n" = ["web1", "web2"] := by
  refine ⟨?_, ?_, ?_⟩
  · rfl
  · exact hostsOfOutput_no_backslash _ (by decide)
  · decide

theorem runCommand_frame (x : Ext) (cmd : Command) (s : St) :
    (runCommand x cmd s).2.t = s.t ∧ (runCommand x cmd s).2.w.commands = s.w.commands ++ [cmd] := by
  unfold runCommand
  dsimp only
  split <;> exact ⟨rfl, rfl⟩

theorem runGalaxy_frame (x : Ext) (args : List String) (s : St) :
    (task.runGalaxy x args s).2.t = s.t ∧
    ∃ c, (task.runGalaxy x args s).2.w.commands = s.w.commands ++ [c] ∧
      c.name = "ansible-galaxy" ∧ c.args = args := by
  unfold task.runGalaxy
  dsimp only
  exact ⟨(runCommand_frame x _ s).1, _, (runCommand_frame x _ s).2, rfl, rfl⟩

theorem hasRequirementsChanges_iff (x : Ext) (fs : FS) (req hash : String) :
    hasRequirementsChanges x fs req hash = true ↔
      ((∃ e, fs.readFile hash = Except.error e) ∨ (∃ e, GetMD5Hash x fs req = Except.error e) ∨
        ∃ old new, fs.readFile hash = Except.ok old ∧ GetMD5Hash x fs req = Except.ok new ∧
          old ≠ new) := by
  unfold hasRequirementsChanges
  cases h1 : fs.readFile hash with
  | error e => simp
  | ok old =>
    cases h2 : GetMD5Hash x fs req with
    | error e => simp
    | ok new => simp

theorem FS.find_put_ne (fs : FS) (p q : String) (n : FileNode) (h : q ≠ p) :
    (fs.put p n).find q = fs.find q := by
  have hq : (q == p) = false := by simpa using h
  unfold FS.put FS.find
  simp only [List.lookup_cons, hq]
  induction fs.files with
  | nil => rfl
  | cons e l ih =>
    obtain ⟨a, b⟩ := e
    by_cases ha : a = p
    · subst ha
      simp [List.filter_cons, List.lookup_cons, hq, ih]
    · have h1 : (a != p) = true := by simpa using ha
      simp only [List.filter_cons, h1, if_true, List.lookup_cons]
      cases (q == a) <;> simp [ih]

theorem FS.writeFile_other (fs fs1 : FS) (p q data : String) (perm : Nat)
    (h : fs.writeFile p data perm = Except.ok fs1) (hq : q ≠ p) :
    fs1.stat q = fs.stat q ∧ fs1.readFile q = fs.readFile q := by
  unfold FS.writeFile at h
  split at h
  · cases h
  · split at h <;>
      · simp only [Except.ok.injEq] at h
        subst h
        have hput : ∀ n, (fs.put p n).faulty = fs.faulty := fun _ => rfl
        simp [FS.stat, FS.readFile, FS.find_put_ne _ _ _ _ hq, hput]

theorem requirements_paths_ne (x : Ext) (t : Semaphore.task) :
    t.requirementsFilePath x ≠ t.requirementsHashFilePath x := by
  unfold task.requirementsFilePath task.requirementsHashFilePath
  intro h
  have h2 := congrArg String.data h
  simp only [String.data_append, List.append_cancel_left_eq] at h2
  exact absurd h2 (by decide)


theorem GetMD5Hash_ok_stat (x : Ext) (fs : FS) (p d : String)
    (h : GetMD5Hash x fs p = Except.ok d) : fs.stat p = StatResult.ok := by
  unfold GetMD5Hash FS.readFile at h
  unfold FS.stat
  by_cases hf : p ∈ fs.faulty
  · simp [hf] at h
  · simp only [hf, if_false] at h ⊢
    cases hfind : fs.find p with
    | none => simp [hfind] at h
    | some n => rfl

/-- What installRequirements does when the requirements file is there and the digest
shows a change: run the installer, then store the digest. -/
theorem installRequirements_changed (x : Ext) (s : St)
    (hst : s.w.fs.stat (s.t.requirementsFilePath x) = StatResult.ok)
    (hc : hasRequirementsChanges x s.w.fs (s.t.requirementsFilePath x)
        (s.t.requirementsHashFilePath x) = true) :
    task.installRequirements x s =
      match task.runGalaxy x ["install", "-r", "roles/requirements.yml", "--force"] s with
      | (some e, s1) => (some e, s1)
      | (none, s1) =>
        match writeMD5Hash x s1.w.fs (s.t.requirementsFilePath x)
            (s.t.requirementsHashFilePath x) with
        | Except.error e => (some e, s1)
        | Except.ok fs1 => (none, { s1 with w := { s1.w with fs := fs1 } }) := by
  unfold task.installRequirements
  simp only [hst, hc, if_true]

/-- What installRequirements does when the requirements file is there and the digest
shows no change: log and return. -/
theorem installRequirements_unchanged (x : Ext) (s : St)
    (hst : s.w.fs.stat (s.t.requirementsFilePath x) = StatResult.ok)
    (hc : hasRequirementsChanges x s.w.fs (s.t.requirementsFilePath x)
        (s.t.requirementsHashFilePath x) = false) :
    task.installRequirements x s =
      (none, task.log "roles/requirements.yml has no changes. Skip galaxy install process.\n" s) := by
  unfold task.installRequirements
  simp [hst, hc]

/-- C10 (as amended): the role-dependency cache.  With the requirements file there,
the installer is run (one more command, ansible-galaxy install -r
roles/requirements.yml --force) exactly when the digest file cannot be read, the MD5
of the requirements file cannot be computed, or the two differ; when they are equal
the call succeeds, runs no command and leaves the filesystem as it was; and after a
call that returns without error and ran the installer, the digest file holds the MD5
of the requirements file, and the same call made again runs no command and writes
nothing. -/
theorem installRequirements_cache (x : Ext) (s : St)
    (hst : s.w.fs.stat (s.t.requirementsFilePath x) = StatResult.ok) :
    ((∃ c, (task.installRequirements x s).2.w.commands = s.w.commands ++ [c] ∧
        c.name = "ansible-galaxy" ∧
        c.args = ["install", "-r", "roles/requirements.yml", "--force"]) ↔
      ((∃ e, s.w.fs.readFile (s.t.requirementsHashFilePath x) = Except.error e) ∨
       (∃ e, GetMD5Hash x s.w.fs (s.t.requirementsFilePath x) = Except.error e) ∨
       ∃ old new, s.w.fs.readFile (s.t.requirementsHashFilePath x) = Except.ok old ∧
          GetMD5Hash x s.w.fs (s.t.requirementsFilePath x) = Except.ok new ∧ old ≠ new)) ∧
    (∀ d, s.w.fs.readFile (s.t.requirementsHashFilePath x) = Except.ok d →
      GetMD5Hash x s.w.fs (s.t.requirementsFilePath x) = Except.ok d →
      (task.installRequirements x s).1 = none ∧
      (task.installRequirements x s).2.w.commands = s.w.commands ∧
      (task.installRequirements x s).2.w.fs = s.w.fs) ∧
    ((task.installRequirements x s).1 = none →
      (task.installRequirements x s).2.w.commands ≠ s.w.commands →
      (∃ d, (task.installRequirements x s).2.w.fs.readFile (s.t.requirementsHashFilePath x)
            = Except.ok d ∧
          GetMD5Hash x (task.installRequirements x s).2.w.fs (s.t.requirementsFilePath x)
            = Except.ok d) ∧
      (task.installRequirements x (task.installRequirements x s).2).1 = none ∧
      (task.installRequirements x (task.installRequirements x s).2).2.w.commands
        = (task.installRequirements x s).2.w.commands ∧
      (task.installRequirements x (task.installRequirements x s).2).2.w.fs
        = (task.installRequirements x s).2.w.fs) := by
  cases hc : hasRequirementsChanges x s.w.fs (s.t.requirementsFilePath x)
      (s.t.requirementsHashFilePath x) with
  | false =>
    have hr := installRequirements_unchanged x s hst hc
    have hno : ¬ ((∃ e, s.w.fs.readFile (s.t.requirementsHashFilePath x) = Except.error e) ∨
       (∃ e, GetMD5Hash x s.w.fs (s.t.requirementsFilePath x) = Except.error e) ∨
       ∃ old new, s.w.fs.readFile (s.t.requirementsHashFilePath x) = Except.ok old ∧
          GetMD5Hash x s.w.fs (s.t.requirementsFilePath x) = Except.ok new ∧ old ≠ new) := by
      rw [← hasRequirementsChanges_iff, hc]
      simp
    rw [hr]
    refine ⟨⟨fun ⟨c, h1, _⟩ => ?_, fun h => absurd h hno⟩, fun _ _ _ => ⟨rfl, rfl, rfl⟩, ?_⟩
    · have h2 := congrArg List.length h1
      simp [task.log] at h2
    · intro _ h
      exact absurd rfl h
  | true =>
    have hr := installRequirements_changed x s hst hc
    have hyes := (hasRequirementsChanges_iff x s.w.fs (s.t.requirementsFilePath x)
      (s.t.requirementsHashFilePath x)).mp hc
    obtain ⟨g1, c, g2, g3, g4⟩ :=
      runGalaxy_frame x ["install", "-r", "roles/requirements.yml", "--force"] s
    generalize task.runGalaxy x ["install", "-r", "roles/requirements.yml", "--force"] s = rg
      at hr g1 g2
    obtain ⟨e1, s1⟩ := rg
    simp only at g1 g2
    refine ⟨⟨fun _ => hyes, fun _ => ⟨c, ?_, g3, g4⟩⟩, ?_, ?_⟩
    · rw [hr]
      cases e1 with
      | some e => exact g2
      | none =>
        dsimp only
        split <;> exact g2
    · intro d h1 h2
      have : hasRequirementsChanges x s.w.fs (s.t.requirementsFilePath x)
          (s.t.requirementsHashFilePath x) = false := by
        simp [hasRequirementsChanges, h1, h2]
      rw [hc] at this
      cases this
    · rw [hr]
      cases e1 with
      | some e => intro h; cases h
      | none =>
        dsimp only
        cases hw : writeMD5Hash x s1.w.fs (s.t.requirementsFilePath x)
            (s.t.requirementsHashFilePath x) with
        | error e => intro h; cases h
        | ok fs1 =>
          intro _ _
          dsimp only
          -- the digest that was written
          unfold writeMD5Hash at hw
          cases hm : GetMD5Hash x s1.w.fs (s.t.requirementsFilePath x) with
          | error e => simp [hm] at hw
          | ok d =>
            simp only [hm] at hw
            obtain ⟨w1, _, _, _⟩ := FS.writeFile_ok _ _ _ _ _ hw
            obtain ⟨w5, w6⟩ := FS.writeFile_other _ _ _ (s.t.requirementsFilePath x) _ _ hw
              (requirements_paths_ne x s.t)
            have hm1 : GetMD5Hash x fs1 (s.t.requirementsFilePath x) = Except.ok d := by
              unfold GetMD5Hash at hm ⊢
              rw [w6]
              exact hm
            refine ⟨⟨d, w1, hm1⟩, ?_⟩
            have ht : ({ s1 with w := { s1.w with fs := fs1 } } : St).t = s.t := g1
            have hst2 : ({ s1 with w := { s1.w with fs := fs1 } } : St).w.fs.stat
                (({ s1 with w := { s1.w with fs := fs1 } } : St).t.requirementsFilePath x)
                  = StatResult.ok := by
              rw [ht]
              exact GetMD5Hash_ok_stat x fs1 _ d hm1
            have hc2 : hasRequirementsChanges x ({ s1 with w := { s1.w with fs := fs1 } } : St).w.fs
                (({ s1 with w := { s1.w with fs := fs1 } } : St).t.requirementsFilePath x)
                (({ s1 with w := { s1.w with fs := fs1 } } : St).t.requirementsHashFilePath x)
                  = false := by
              rw [ht]
              simp [hasRequirementsChanges, w1, hm1]
            rw [installRequirements_unchanged x _ hst2 hc2]
            exact ⟨rfl, rfl, rfl⟩


theorem installRequirements_cache_witness :
    reqWritableSt.w.fs.stat (reqWritableSt.t.requirementsFilePath quietExt) = StatResult.ok ∧
    (task.installRequirements quietExt reqWritableSt).1 = none ∧
    (task.installRequirements quietExt reqWritableSt).2.w.commands.map (fun c => c.name)
      = ["ansible-galaxy"] ∧
    (task.installRequirements quietExt (task.installRequirements quietExt reqWritableSt).2).2.w.commands
      = (task.installRequirements quietExt reqWritableSt).2.w.commands :=
  ⟨by decide, by decide, by decide,
    ((installRequirements_cache quietExt reqWritableSt (by decide)).2.2
      (by decide) (by decide)).2.2.1⟩

/-- C10 (as stated) fails: the requirements file is there, no digest is stored and the
digest file cannot be written.  The installer is run and exits without error, yet the
call returns the error of the write, no digest is stored (so the stored digest is not
the MD5 of the requirements file), and the same call made again runs the installer
again. -/
theorem installRequirements_digest_not_stored :
    reqSt.w.fs.stat (reqSt.t.requirementsFilePath quietExt) = StatResult.ok ∧
    (task.runGalaxy quietExt ["install", "-r", "roles/requirements.yml", "--force"] reqSt).1
      = none ∧
    (task.installRequirements quietExt reqSt).2.w.commands.map (fun c => (c.name, c.args))
      = [("ansible-galaxy", ["install", "-r", "roles/requirements.yml", "--force"])] ∧
    (task.installRequirements quietExt reqSt).1
      = some "open /tmp/semaphore/repository_5_3/requirements.md5: permission denied" ∧
    GetMD5Hash quietExt (task.installRequirements quietExt reqSt).2.w.fs
        (reqSt.t.requirementsFilePath quietExt)
      = Except.ok "md5-of:- src: geerlingguy.nginx" ∧
    (task.installRequirements quietExt reqSt).2.w.fs.readFile
        (reqSt.t.requirementsHashFilePath quietExt)
      = Except.error "open /tmp/semaphore/repository_5_3/requirements.md5: no such file or directory" ∧
    (task.installRequirements quietExt (task.installRequirements quietExt reqSt).2).2.w.commands.map
        (fun c => c.name)
      = ["ansible-galaxy", "ansible-galaxy"] := by
  refine ⟨by decide, by decide, by decide, by decide, rfl, rfl, by decide⟩

theorem addExtraVars_extends (x : Ext) (args : List String) (s : St) :
    ∃ ev, (task.addExtraVars x args s).1 = args ++ ev := by
  unfold task.addExtraVars
  split
  · exact ⟨[], by simp⟩
  · split
    · exact ⟨_, rfl⟩
    · exact ⟨[], by simp⟩

theorem leadingArgs_eq (x : Ext) (t : Semaphore.task) :
    t.leadingArgs x =
      ["-i", if t.inventory.Type_ = "file" then t.inventory.Inventory
             else x.TmpPath ++ "/inventory_" ++ itoa t.task.ID]
      ++ (if t.inventory.SSHKeyID ≠ none ∧ t.inventory.SSHKey.Type_ = AccessKeySSH then
            ["--private-key=" ++ t.inventory.SSHKey.GetPath x] else [])
      ++ (if t.task.Debug = true then ["-vvvv"] else [])
      ++ (if t.task.DryRun = true then ["--check"] else [])
      ++ (if t.template.VaultPassID ≠ none then
            ["--vault-password-file", t.template.VaultPass.GetPath x] else []) := by
  unfold task.leadingArgs task.inventoryPath
  have h1 : (t.inventory.SSHKeyID.isSome = true) ↔ t.inventory.SSHKeyID ≠ none := by
    cases t.inventory.SSHKeyID <;> simp
  have h2 : (t.template.VaultPassID.isSome = true) ↔ t.template.VaultPassID ≠ none := by
    cases t.template.VaultPassID <;> simp
  simp only [h1, h2]
  by_cases c1 : t.inventory.SSHKeyID ≠ none ∧ t.inventory.SSHKey.Type_ = AccessKeySSH <;>
  by_cases c2 : t.task.Debug = true <;>
  by_cases c3 : t.task.DryRun = true <;>
  by_cases c4 : t.template.VaultPassID ≠ none <;>
  simp [c1, c2, c3, c4]

/-- C12 (as amended): with OverrideArguments off and both argument texts decoding, the
argv of getPlaybookArgs starts with -i and the inventory path (the stored path for an
inventory of type file, tmp/inventory_taskId otherwise), followed in this order by
--private-key=path exactly when the inventory refers to an SSH key (SSHKeyID is set)
and that key is of type ssh, -vvvv exactly when the debug flag is set, --check exactly
when the dry-run flag is set, and --vault-password-file with the vault path exactly
when the template has a vault credential. -/
theorem getPlaybookArgs_leading (x : Ext) (s : St) (ta ka : List String)
    (ho : s.t.template.OverrideArguments = false)
    (hta : unmarshalArguments x.lib s.t.template.Arguments = Except.ok ta)
    (hka : unmarshalArguments x.lib s.t.task.Arguments = Except.ok ka) :
    ∃ rest, (task.getPlaybookArgs x s).1 = Except.ok (
      ["-i", if s.t.inventory.Type_ = "file" then s.t.inventory.Inventory
             else x.TmpPath ++ "/inventory_" ++ itoa s.t.task.ID]
      ++ (if s.t.inventory.SSHKeyID ≠ none ∧ s.t.inventory.SSHKey.Type_ = AccessKeySSH then
            ["--private-key=" ++ s.t.inventory.SSHKey.GetPath x] else [])
      ++ (if s.t.task.Debug = true then ["-vvvv"] else [])
      ++ (if s.t.task.DryRun = true then ["--check"] else [])
      ++ (if s.t.template.VaultPassID ≠ none then
            ["--vault-password-file", s.t.template.VaultPass.GetPath x] else [])
      ++ rest) := by
  obtain ⟨ev, hev⟩ := addExtraVars_extends x (s.t.leadingArgs x) s
  unfold task.getPlaybookArgs
  dsimp only
  generalize task.addExtraVars x (s.t.leadingArgs x) s = r at hev ⊢
  obtain ⟨args, s1⟩ := r
  simp only at hev
  simp only [hta, hka, ho, Bool.false_eq_true, if_false]
  refine ⟨ev ++ ta ++ ka ++ [s.t.playbookName], ?_⟩
  rw [hev, leadingArgs_eq]
  simp only [List.append_assoc]

theorem getPlaybookArgs_leading_witness :
    ∃ rest, (task.getPlaybookArgs quietExt fullArgsSt).1 = Except.ok (
      ["-i", "hosts/prod", "--private-key=/tmp/semaphore/access_key_11", "-vvvv", "--check",
        "--vault-password-file", "/tmp/semaphore/access_key_12"] ++ rest) := by
  have h := getPlaybookArgs_leading quietExt fullArgsSt [] [] rfl rfl rfl
  exact h

/-- C12 (as stated) fails: the SSH key of the inventory is of type ssh but the
inventory does not refer to it (SSHKeyID is not set); the argv has no --private-key. -/
theorem getPlaybookArgs_unreferenced_key :
    unreferencedKeySt.t.inventory.SSHKey.Type_ = AccessKeySSH ∧
    unreferencedKeySt.t.template.OverrideArguments = false ∧
    (task.getPlaybookArgs quietExt unreferencedKeySt).1
      = Except.ok ["-i", "/tmp/semaphore/inventory_7", "--extra-vars", "\x7b\x7d", "site.yml"] ∧
    ¬ ∃ rest, (task.getPlaybookArgs quietExt unreferencedKeySt).1
      = Except.ok (["-i", "/tmp/semaphore/inventory_7",
          "--private-key=" ++ unreferencedKeySt.t.inventory.SSHKey.GetPath quietExt] ++ rest) := by
  have h : (task.getPlaybookArgs quietExt unreferencedKeySt).1
      = Except.ok ["-i", "/tmp/semaphore/inventory_7", "--extra-vars", "\x7b\x7d", "site.yml"] := by
    rfl
  refine ⟨rfl, rfl, h, ?_⟩
  rintro ⟨rest, hr⟩
  rw [h] at hr
  simp only [Except.ok.injEq, List.cons_append, List.nil_append, List.cons.injEq, true_and] at hr
  exact absurd hr.1 (by decide)

/-- The list that envVars returns: the inherited environment, HOME, PWD, the entry for
PYTHONUNBUFFERED as fmt.Sprintln builds it (with a newline at its end), the entries of
the ENV object, and the git SSH command when one is given. -/
theorem envVars_shape (x : Ext) (t : Semaphore.task) (home pwd : String)
    (gitSSHCommand : Option String) :
    t.envVars x home pwd gitSSHCommand =
      x.environ ++ ["HOME=" ++ home, "PWD=" ++ pwd, "PYTHONUNBUFFERED=1\n"]
        ++ extractCommandEnvironment x.lib t.environment.JSON
        ++ (match gitSSHCommand with
            | some c => ["GIT_SSH_COMMAND=" ++ c]
            | none => []) := by
  unfold task.envVars
  cases gitSSHCommand <;> simp

/-- What updateRepository hands to envVars: for an ssh credential the command ssh -o
StrictHostKeyChecking=no -i with the path of the key, for a credential of type none
no command, and for any other type it fails before anything is run. -/
theorem updateRepository_credential (x : Ext) (s : St) :
    (s.t.repository.SSHKey.Type_ = AccessKeySSH →
      s.w.fs.stat (s.t.getRepoPath x) = StatResult.notExist ∨
        s.w.fs.stat (s.t.getRepoPath x) = StatResult.ok →
      ∃ cmd, (task.updateRepository x s).2.w.commands = s.w.commands ++ [cmd] ∧
        cmd.name = "git" ∧
        cmd.env = s.t.envVars x x.TmpPath x.TmpPath
          (some ("ssh -o StrictHostKeyChecking=no -i " ++ s.t.repository.SSHKey.GetPath x))) ∧
    (s.t.repository.SSHKey.Type_ = AccessKeyNone →
      s.w.fs.stat (s.t.getRepoPath x) = StatResult.notExist ∨
        s.w.fs.stat (s.t.getRepoPath x) = StatResult.ok →
      ∃ cmd, (task.updateRepository x s).2.w.commands = s.w.commands ++ [cmd] ∧
        cmd.name = "git" ∧ cmd.env = s.t.envVars x x.TmpPath x.TmpPath none) ∧
    (s.t.repository.SSHKey.Type_ ≠ AccessKeySSH → s.t.repository.SSHKey.Type_ ≠ AccessKeyNone →
      task.updateRepository x s
        = (some ("unsupported access key type: " ++ s.t.repository.SSHKey.Type_), s)) := by
  refine ⟨fun ht hst => ?_, fun ht hst => ?_, fun h1 h2 => ?_⟩
  · unfold task.updateRepository
    rcases hst with hst | hst
    · simp only [ht, hst, if_true]
      exact ⟨_, (runCommand_frame x _ _).2, rfl, rfl⟩
    · simp only [ht, hst, if_true]
      exact ⟨_, (runCommand_frame x _ _).2, rfl, rfl⟩
  · have hne : AccessKeyNone ≠ AccessKeySSH := by decide
    unfold task.updateRepository
    rcases hst with hst | hst
    · simp only [ht, hne, hst, if_true, if_false]
      exact ⟨_, (runCommand_frame x _ _).2, rfl, rfl⟩
    · simp only [ht, hne, hst, if_true, if_false]
      exact ⟨_, (runCommand_frame x _ _).2, rfl, rfl⟩
  · unfold task.updateRepository
    simp only [h1, h2, if_false]

/-- C13 (code bug): the third entry that envVars adds is built with fmt.Sprintln and
ends with a newline; it is not the string PYTHONUNBUFFERED=1, and no entry of the
list is. -/
theorem envVars_newline :
    sampleTask.envVars quietExt "/home/semaphore" "/tmp/semaphore" none
      = ["HOME=/home/semaphore", "PWD=/tmp/semaphore", "PYTHONUNBUFFERED=1\n"] ∧
    "PYTHONUNBUFFERED=1" ∉ sampleTask.envVars quietExt "/home/semaphore" "/tmp/semaphore" none ∧
    sampleTask.envVars quietExt "/home/semaphore" "/tmp/semaphore" none
      ≠ ["HOME=/home/semaphore", "PWD=/tmp/semaphore", "PYTHONUNBUFFERED=1"] := by
  decide

/-! ### The end timestamp under prepareRun and run -/

theorem setStatus_End (x : Ext) (status : String) (s : St) :
    (task.setStatus x status s).2.t.task.End = s.t.task.End := by
  unfold task.setStatus
  split
  · split
    · rw [updateStatus_task]; rfl
    · split
      · rw [updateStatus_task]; rfl
      · rfl
  · rw [updateStatus_task]; rfl

theorem sendAlerts_task (s : St) : (task.sendAlerts s).t = s.t := by
  unfold task.sendAlerts
  split
  · dsimp only
    split <;> rfl
  · rfl

theorem fail_End (x : Ext) (s : St) : (task.fail x s).2.t.task.End = s.t.task.End := by
  unfold task.fail
  have h := setStatus_End x taskFailStatus s
  generalize task.setStatus x taskFailStatus s = r at h ⊢
  obtain ⟨o, s1⟩ := r
  cases o with
  | done => simpa [sendAlerts_task] using h
  | panic m => exact h

theorem installKey_task (x : Ext) (key : AccessKey) (s : St) :
    (task.installKey x key s).2.t = s.t := by
  unfold task.installKey
  split
  · rfl
  · dsimp only
    split
    · rfl
    · split <;> rfl

theorem updateRepository_task (x : Ext) (s : St) : (task.updateRepository x s).2.t = s.t := by
  unfold task.updateRepository
  dsimp only
  split
  · rfl
  · split
    · exact (runCommand_frame x _ _).1
    · rfl
    · exact (runCommand_frame x _ _).1

theorem installInventory_task (x : Ext) (s : St) : (task.installInventory x s).2.t = s.t := by
  unfold task.installInventory
  split
  · rfl
  · split <;> rfl

theorem installRequirements_task (x : Ext) (s : St) :
    (task.installRequirements x s).2.t = s.t := by
  unfold task.installRequirements
  dsimp only
  split
  · rfl
  · rfl
  · split
    · have h := (runGalaxy_frame x ["install", "-r", "roles/requirements.yml", "--force"] s).1
      generalize task.runGalaxy x ["install", "-r", "roles/requirements.yml", "--force"] s = r
        at h ⊢
      obtain ⟨e, s1⟩ := r
      cases e with
      | some e => exact h
      | none =>
        dsimp only
        split <;> exact h
    · rfl

theorem installVaultPassFile_task (x : Ext) (s : St) :
    (task.installVaultPassFile x s).2.t = s.t := by
  unfold task.installVaultPassFile
  split
  · rfl
  · dsimp only
    split <;> rfl

theorem addExtraVars_task (x : Ext) (args : List String) (s : St) :
    (task.addExtraVars x args s).2.t = s.t := by
  unfold task.addExtraVars
  split
  · rfl
  · split <;> rfl

theorem getPlaybookArgs_task (x : Ext) (s : St) : (task.getPlaybookArgs x s).2.t = s.t := by
  unfold task.getPlaybookArgs
  dsimp only
  have h := addExtraVars_task x (s.t.leadingArgs x) s
  generalize task.addExtraVars x (s.t.leadingArgs x) s = r at h ⊢
  obtain ⟨args, s1⟩ := r
  dsimp only at h ⊢
  split
  · exact h
  · split
    · exact h
    · split <;> exact h

theorem listPlaybookHosts_End (x : Ext) (s : St) :
    (task.listPlaybookHosts x s).2.t.task = s.t.task := by
  unfold task.listPlaybookHosts
  split
  · rfl
  · have h := getPlaybookArgs_task x s
    generalize task.getPlaybookArgs x s = r at h ⊢
    obtain ⟨a, s1⟩ := r
    cases a with
    | error e => exact congrArg _ h
    | ok args =>
      dsimp only
      have h2 := (runCommand_frame x
        { name := "ansible-playbook", args := args ++ ["--list-hosts"], dir := s1.t.getRepoPath x,
          env := s1.t.envVars x x.TmpPath (s1.t.getRepoPath x) none } s1).1
      rw [h2]
      exact congrArg _ h


theorem prepareError_End (x : Ext) (err : StoreErr) (errMsg : String) (s : St) :
    (task.prepareError x err errMsg s).2.t.task.End = s.t.task.End := by
  unfold task.prepareError
  split
  · rfl
  · have h := fail_End x s
    generalize task.fail x s = r at h ⊢
    obtain ⟨o, s1⟩ := r
    cases o <;> exact h

theorem populateEnvironment_End (x : Ext) (s : St) :
    (task.populateEnvironment x s).2.t.task.End = s.t.task.End := by
  unfold task.populateEnvironment
  split
  · split
    · rfl
    · split <;> rfl
  · split <;> rfl

theorem populateInventory_End (x : Ext) (s : St) :
    (task.populateInventory x s).2.t.task.End = s.t.task.End := by
  unfold task.populateInventory
  split
  · exact (prepareError_End x _ _ _).trans rfl
  · dsimp only
    split
    · rfl
    · exact (populateEnvironment_End x _).trans rfl

theorem populateDetails_End (x : Ext) (s : St) :
    (task.populateDetails x s).2.t.task.End = s.t.task.End := by
  unfold task.populateDetails
  split
  · exact (prepareError_End x _ _ _).trans rfl
  · dsimp only
    split
    · exact (prepareError_End x _ _ _).trans rfl
    · split
      · exact (prepareError_End x _ _ _).trans rfl
      · exact (populateInventory_End x _).trans rfl

theorem stepOrFail_End (x : Ext) (r : Option String × St) (msg : String → String)
    (next : St → Outcome × St) (e0 : Option Nat) (hr : r.2.t.task.End = e0)
    (hn : ∀ s1 : St, s1.t.task.End = e0 → (next s1).2.t.task.End = e0) :
    (task.stepOrFail x r msg next).2.t.task.End = e0 := by
  unfold task.stepOrFail
  obtain ⟨e, s1⟩ := r
  cases e with
  | some e =>
    dsimp only
    rw [fail_End]
    exact hr
  | none => exact hn s1 hr

theorem prepareSteps_End (x : Ext) (s : St) :
    (task.prepareSteps x s).2.t.task.End = s.t.task.End := by
  unfold task.prepareSteps
  dsimp only
  apply stepOrFail_End
  · rw [installKey_task]; rfl
  intro s1 h1
  apply stepOrFail_End
  · rw [updateRepository_task]; exact h1
  intro s2 h2
  apply stepOrFail_End
  · rw [installInventory_task]; exact h2
  intro s3 h3
  apply stepOrFail_End
  · rw [installRequirements_task]; exact h3
  intro s4 h4
  apply stepOrFail_End
  · rw [installVaultPassFile_task]; exact h4
  intro s5 h5
  have h6 := listPlaybookHosts_End x s5
  generalize task.listPlaybookHosts x s5 = r at h6 ⊢
  obtain ⟨⟨stderr, err⟩, s6⟩ := r
  dsimp only at h6 ⊢
  apply stepOrFail_End
  · dsimp only
    rw [h6]; exact h5
  intro s7 h7
  exact h7

theorem prepareBody_End (x : Ext) (s : St) :
    (task.prepareBody x s).2.t.task.End = s.t.task.End := by
  unfold task.prepareBody
  dsimp only
  split
  · exact (fail_End x _).trans rfl
  · rename_i fs1 _
    have h := populateDetails_End x
      { (task.log ("Preparing: " ++ itoa s.t.task.ID)
          { s with t := { s.t with prepared := false } }) with
        w := { (task.log ("Preparing: " ++ itoa s.t.task.ID)
          { s with t := { s.t with prepared := false } }).w with fs := fs1 } }
    generalize task.populateDetails x _ = r at h ⊢
    obtain ⟨o, s2⟩ := r
    have h' : s2.t.task.End = s.t.task.End := h
    cases o with
    | panic m => exact h'
    | err e => exact (fail_End x _).trans h'
    | ok =>
      dsimp only
      have h3 : (storeCreateEvent x (s2.t.eventOf " is preparing") s2).2.t = s2.t := rfl
      generalize storeCreateEvent x (s2.t.eventOf " is preparing") s2 = r3 at h3 ⊢
      obtain ⟨e3, s3⟩ := r3
      dsimp only at h3
      cases e3 with
      | some e =>
        show s3.t.task.End = s.t.task.End
        rw [h3]
        exact h'
      | none =>
        dsimp only
        rw [prepareSteps_End, h3]
        exact h'

/-- Whatever the outside does, prepareRun leaves the end timestamp of the task as it
was: no path through it sets the timestamp, not even the paths that fail the task. -/
theorem prepareRun_End (x : Ext) (s : St) :
    (task.prepareRun x s).2.t.task.End = s.t.task.End := by
  unfold task.prepareRun
  have h := prepareBody_End x s
  generalize task.prepareBody x s = r at h ⊢
  obtain ⟨o, s1⟩ := r
  dsimp only at h ⊢
  have h2 : (task.prepareDeferred x s1).2.t = s1.t := by
    unfold task.prepareDeferred
    dsimp only
    rw [(createTaskEvent_frame x _).1]
  generalize task.prepareDeferred x s1 = r2 at h2 ⊢
  obtain ⟨o2, s2⟩ := r2
  dsimp only at h2
  cases o2 <;> (dsimp only; rw [h2]; exact h)


theorem setStatus_done (x : Ext) (status : String) (s : St)
    (h : (task.setStatus x status s).1 = Outcome.done) :
    (task.setStatus x status s).2.t.task.Status
      = if s.t.task.Status = taskStoppingStatus then taskStoppedStatus else status := by
  unfold task.setStatus at h ⊢
  by_cases hs : s.t.task.Status = taskStoppingStatus
  · simp only [hs, if_true] at h ⊢
    by_cases h1 : status = taskFailStatus
    · simp only [h1, if_true, updateStatus_task, St.withStatus]
    · simp only [h1, if_false] at h ⊢
      by_cases h2 : status = taskStoppedStatus
      · simp only [h2, if_true, updateStatus_task, St.withStatus]
      · simp only [h2, if_false] at h
        cases h
  · simp only [hs, if_false, updateStatus_task, St.withStatus]

/-- When fail returns without panic, the status is error, or stopped for a task that
was stopping. -/
theorem fail_done (x : Ext) (s : St) (h : (task.fail x s).1 = Outcome.done) :
    (task.fail x s).2.t.task.Status = taskFailStatus ∨
    (task.fail x s).2.t.task.Status = taskStoppedStatus := by
  unfold task.fail at h ⊢
  have h1 := setStatus_done x taskFailStatus s
  generalize task.setStatus x taskFailStatus s = r at h h1 ⊢
  obtain ⟨o, s1⟩ := r
  cases o with
  | panic m => cases h
  | done =>
    have h2 := h1 rfl
    dsimp only at h2 ⊢
    rw [sendAlerts_task, h2]
    by_cases hs : s.t.task.Status = taskStoppingStatus
    · simp [hs]
    · simp [hs]

theorem runPlaybook_frame (x : Ext) (s : St) :
    (task.runPlaybook x s).2.t.task.Status = s.t.task.Status ∨
    (task.runPlaybook x s).2.t.task.Status = taskStoppingStatus := by
  unfold task.runPlaybook
  have h := getPlaybookArgs_task x s
  generalize task.getPlaybookArgs x s = r at h ⊢
  obtain ⟨a, s1⟩ := r
  dsimp only at h
  cases a with
  | error e => exact Or.inl (congrArg (fun t => t.task.Status) h)
  | ok args =>
    dsimp only
    have h2 := (runCommand_frame x
      { name := "ansible-playbook", args := args, dir := s1.t.getRepoPath x,
        env := s1.t.envVars x x.TmpPath (s1.t.getRepoPath x) none } s1).1
    generalize runCommand x _ s1 = rc at h2 ⊢
    obtain ⟨r, s2⟩ := rc
    dsimp only at h2 ⊢
    split
    · left
      rw [h2, h]
    · dsimp only
      split
      · exact Or.inr rfl
      · left
        show s2.t.task.Status = s.t.task.Status
        rw [h2, h]

/-- When the body of run returns without panic, the status of the task is terminal. -/
theorem runBody_done (x : Ext) (s : St) (h : (task.runBody x s).1 = Outcome.done) :
    (task.runBody x s).2.t.task.Status = taskStoppedStatus ∨
    (task.runBody x s).2.t.task.Status = taskSuccessStatus ∨
    (task.runBody x s).2.t.task.Status = taskFailStatus := by
  unfold task.runBody at h ⊢
  by_cases hs : s.t.task.Status = taskStoppingStatus
  · simp only [hs, if_true] at h ⊢
    left
    rw [setStatus_done x _ _ h]
    simp [hs]
  · simp only [hs, if_false] at h ⊢
    generalize task.setStatus x taskRunningStatus _ = r2 at h ⊢
    obtain ⟨o2, s2⟩ := r2
    cases o2 with
    | panic m => cases h
    | done =>
      dsimp only at h ⊢
      generalize storeCreateEvent x (s2.t.eventOf " is running") s2 = r3 at h ⊢
      obtain ⟨e3, s3⟩ := r3
      cases e3 with
      | some e => cases h
      | none =>
        dsimp only at h ⊢
        generalize (if x.stopAt _ = true then _ else _ : St) = s6 at h ⊢
        by_cases h6 : s6.t.task.Status = taskStoppingStatus
        · simp only [h6, if_true] at h ⊢
          left
          rw [setStatus_done x _ _ h]
          simp [h6]
        · simp only [h6, if_false] at h ⊢
          generalize task.runPlaybook x s6 = r7 at h ⊢
          obtain ⟨e7, s7⟩ := r7
          cases e7 with
          | some e =>
            dsimp only at h ⊢
            rcases fail_done x _ h with h8 | h8
            · exact Or.inr (Or.inr h8)
            · exact Or.inl h8
          | none =>
            dsimp only at h ⊢
            rw [setStatus_done x _ _ h]
            by_cases h7 : s7.t.task.Status = taskStoppingStatus
            · simp [h7]
            · simp [h7]

/-- When run returns without panic, the end timestamp of the task is set and its
status is terminal. -/
theorem run_End_terminal (x : Ext) (s : St) (h : (task.run x s).1 = Outcome.done) :
    (∃ n, (task.run x s).2.t.task.End = some n) ∧
    ((task.run x s).2.t.task.Status = taskStoppedStatus ∨
     (task.run x s).2.t.task.Status = taskSuccessStatus ∨
     (task.run x s).2.t.task.Status = taskFailStatus) := by
  unfold task.run at h ⊢
  have hb := runBody_done x s
  generalize task.runBody x s = rb at h hb ⊢
  obtain ⟨o1, s1⟩ := rb
  dsimp only at h hb ⊢
  obtain ⟨d1, _, _⟩ := runDeferred_frame x s1
  generalize task.runDeferred x s1 = rd at h d1 ⊢
  obtain ⟨o2, s2⟩ := rd
  dsimp only at d1
  cases o2 with
  | panic m => cases h
  | done =>
    dsimp only at h ⊢
    rw [d1]
    exact ⟨⟨_, rfl⟩, hb h⟩


/-- C11 (code bug): a waiting task without end timestamp whose repository key has a
passphrase.  Every store call succeeds; prepareRun fails the task at installKey and
returns without panic: the status is error, the task is not prepared, and the end
timestamp is still not set. -/
theorem prepareRun_error_without_End :
    sampleSt.t.task.End = none ∧
    (task.prepareRun lockedRepoExt sampleSt).1 = Outcome.done ∧
    (task.prepareRun lockedRepoExt sampleSt).2.t.task.Status = taskFailStatus ∧
    (task.prepareRun lockedRepoExt sampleSt).2.t.prepared = false ∧
    (task.prepareRun lockedRepoExt sampleSt).2.t.task.End = none ∧
    (task.prepareRun lockedRepoExt sampleSt).2.w.events.map (fun e => e.Description)
      = [some "Task ID 7 (deploy) is preparing", some "Task ID 7 (deploy) finished - ERROR"] := by
  decide

end Semaphore
